import Mathlib

set_option maxHeartbeats 1000000
set_option maxRecDepth 10000

/-! Shallow embedding of `src/xml_writer.rs` (crate `xml_writer`, the
`XmlWriter` streaming XML serializer), together with proofs about its
element-nesting state machine, formatting modes, escaping and error paths.

The writer streams bytes to an injected sink (`W: Write`).  The sink is
modelled inside the state: `out` is the string of bytes it has accepted so
far, and `failAfter`/`errv` configure when a `write_all` call fails and with
which I/O error code.  Rust methods take `&mut self` and return
`io::Result<()>`; here they take the writer and return either the updated
writer or an error paired with the writer state at the failure point (Rust's
`?` propagates the error while the partially-updated writer persists). -/

/-- Error outcome of a writer operation: either the sink failed (the Rust
`io::Error`, modelled by the numeric code the sink was configured with), or
the code panicked (the source's panic messages interpolate the
debug-formatted stack, which is elided here). -/
inductive XmlError where
  | sinkErr (code : Nat)
  | panicked (msg : String)
  deriving Repr, DecidableEq

/-- State of `struct XmlWriter` plus the sink model.  Borrowed `&str` values
become `String`s.  The source field `namespace` is called `ns` here
(`namespace` is a Lean keyword).  `Vec` push/pop at the back becomes list
cons/uncons at the front: the head of `stack`/`ns_stack` is the innermost
open element.  `failAfter = some n` means the sink accepts `n` more
`write_all` calls and then fails with error code `errv`; `none` means the
sink never fails; a failing `write_all` is modelled as accepting nothing. -/
structure XmlWriter where
  stack : List (String × Bool)
  ns_stack : List (Option String)
  out : String
  opened : Bool
  pretty : Bool
  ns : Option String
  very_pretty : Bool
  children : Bool
  newline : Bool
  failAfter : Option Nat
  errv : Nat
  deriving Repr, DecidableEq

/-- Result of one fallible writer method call. -/
abbrev XmlRes := Except (XmlError × XmlWriter) XmlWriter

/-- Method `write`: a single `write_all` call on the underlying sink. -/
def XmlWriter.write (w : XmlWriter) (text : String) : XmlRes :=
  match w.failAfter with
  | none => .ok { w with out := w.out ++ text }
  | some 0 => .error (.sinkErr w.errv, w)
  | some (n + 1) => .ok { w with out := w.out ++ text, failAfter := some n }

/-- Constructor `compact_mode`, parametrised by the sink's failure model. -/
def XmlWriter.compact_mode (failAfter : Option Nat) (errv : Nat) : XmlWriter :=
  { stack := [], ns_stack := [], out := "", opened := false, pretty := false,
    ns := none, very_pretty := false, children := false, newline := false,
    failAfter := failAfter, errv := errv }

/-- Constructor `pretty_mode`. -/
def XmlWriter.pretty_mode (failAfter : Option Nat) (errv : Nat) : XmlWriter :=
  { stack := [], ns_stack := [], out := "", opened := false, pretty := true,
    ns := none, very_pretty := false, children := false, newline := false,
    failAfter := failAfter, errv := errv }

/-- Constructor `very_pretty_mode`. -/
def XmlWriter.very_pretty_mode (failAfter : Option Nat) (errv : Nat) : XmlWriter :=
  { stack := [], ns_stack := [], out := "", opened := false, pretty := true,
    ns := none, very_pretty := true, children := false, newline := false,
    failAfter := failAfter, errv := errv }

/-- Setter `set_compact_mode`. -/
def XmlWriter.set_compact_mode (w : XmlWriter) : XmlWriter :=
  { w with pretty := false, very_pretty := false }

/-- Setter `set_pretty_mode`. -/
def XmlWriter.set_pretty_mode (w : XmlWriter) : XmlWriter :=
  { w with pretty := true, very_pretty := false }

/-- Setter `set_very_pretty_mode`. -/
def XmlWriter.set_very_pretty_mode (w : XmlWriter) : XmlWriter :=
  { w with pretty := true, very_pretty := true }

/-- Method `dtd`. -/
def XmlWriter.dtd (w : XmlWriter) (encoding : String) : XmlRes := do
  let w ← w.write "<?xml version=\"1.0\" encoding=\""
  let w ← w.write encoding
  w.write "\" ?>\n"

/-- The `for _ in 0..indent { self.write("  ")?; }` loop of `indent`. -/
def writeIndent (w : XmlWriter) : Nat → XmlRes
  | 0 => .ok w
  | n + 1 => do
      let w ← w.write "  "
      writeIndent w n

/-- Method `indent`. -/
def XmlWriter.indent (w : XmlWriter) : XmlRes :=
  let ind := w.stack.length
  if w.very_pretty then do
    let w ← if w.newline then w.write "\n" else .ok { w with newline := true }
    writeIndent w ind
  else if w.pretty && !w.stack.isEmpty then do
    let w ← w.write "\n"
    writeIndent w ind
  else
    .ok w

/-- Method `ns_prefix` (named `nsPre` here; the source name ends in a token
this development avoids): writes `prefix:` when a namespace is given. -/
def XmlWriter.nsPre (w : XmlWriter) (nsv : Option String) : XmlRes :=
  match nsv with
  | some n => do
      let w ← w.write n
      w.write ":"
  | none => .ok w

/-- Method `close_elem`: terminate a pending open tag with `/>` (FullyPretty
and no children yet) or `>`. -/
def XmlWriter.close_elem (w : XmlWriter) : XmlRes :=
  if w.opened then do
    let w ← if w.very_pretty && !w.children then w.write "/>" else w.write ">"
    .ok { w with opened := false }
  else
    .ok w

/-- The `if let Some(mut previous) = self.stack.pop() { previous.1 = true;
self.stack.push(previous); }` idiom: flip the top stack entry's
has-children flag to `true`, if any. -/
def markTop (w : XmlWriter) : XmlWriter :=
  match w.stack with
  | [] => w
  | (n, _) :: rest => { w with stack := (n, true) :: rest }

/-- Method `begin_elem`. -/
def XmlWriter.begin_elem (w : XmlWriter) (name : String) : XmlRes := do
  let w := { w with children := true }
  let w ← w.close_elem
  let w := markTop w
  let w ← w.indent
  let w := { w with stack := (name, false) :: w.stack,
                    ns_stack := w.ns :: w.ns_stack }
  let w ← w.write "<"
  let w := { w with opened := true, children := false }
  let w ← w.nsPre w.ns
  w.write name

/-- Method `end_elem`. -/
def XmlWriter.end_elem (w : XmlWriter) : XmlRes := do
  let w ← w.close_elem
  match w.ns_stack with
  | [] =>
      .error (.panicked "Attempted to close namespaced element without corresponding open namespace", w)
  | nsv :: nsrest =>
    let w := { w with ns_stack := nsrest }
    match w.stack with
    | [] => .error (.panicked "Attempted to close an elem, when none was open", w)
    | (name, children) :: srest =>
      let w := { w with stack := srest }
      if w.very_pretty && !children then
        .ok w
      else do
        let w ← if w.very_pretty then w.indent else .ok w
        let w ← w.write "</"
        let w ← w.nsPre nsv
        let w ← w.write name
        w.write ">"

/-- Method `elem` (self-closing element shorthand).  Notably it neither sets
the transient `children` flag nor marks the top of the stack. -/
def XmlWriter.elem (w : XmlWriter) (name : String) : XmlRes := do
  let w ← w.close_elem
  let w ← w.indent
  let w ← w.write "<"
  let w ← w.nsPre w.ns
  let w ← w.write name
  w.write "/>"

/-- Character-level escaping of method `escape`: entity substitution for the
five special characters, doubling of a backslash when escaping an
identifier, every other character passed through unchanged. -/
def escapeChar (ident : Bool) (c : Char) : String :=
  if c = '"' then "&quot;"
  else if c = '\'' then "&apos;"
  else if c = '&' then "&amp;"
  else if c = '<' then "&lt;"
  else if c = '>' then "&gt;"
  else if c = '\\' && ident then "\\\\"
  else String.singleton c

/-- The character loop of method `escape`: each substituted chunk is one
sink write. -/
def escapeGo (ident : Bool) : XmlWriter → List Char → XmlRes
  | w, [] => .ok w
  | w, c :: cs => do
      let w ← w.write (escapeChar ident c)
      escapeGo ident w cs

/-- Method `escape`. -/
def XmlWriter.escape (w : XmlWriter) (t : String) (ident : Bool) : XmlRes :=
  escapeGo ident w t.data

/-- Method `elem_text`. -/
def XmlWriter.elem_text (w : XmlWriter) (name t : String) : XmlRes := do
  let w ← w.close_elem
  let w ← w.indent
  let w ← w.write "<"
  let w ← w.nsPre w.ns
  let w ← w.write name
  let w ← w.write ">"
  let w ← w.escape t false
  let w ← w.write "</"
  let w ← w.write name
  w.write ">"

/-- Method `empty_elem`. -/
def XmlWriter.empty_elem (w : XmlWriter) (name : String) : XmlRes := do
  let w := { w with children := true }
  let w ← w.close_elem
  let w := markTop w
  let w := { w with children := false }
  let w ← w.indent
  let w ← w.write "<"
  let w ← w.nsPre w.ns
  let w ← w.write name
  w.write "/>"

/-- Method `attr` (raw, unescaped). -/
def XmlWriter.attr (w : XmlWriter) (name value : String) : XmlRes :=
  if !w.opened then
    .error (.panicked "Attempted to write attr to elem, when no elem was opened", w)
  else do
    let w ← w.write " "
    let w ← w.write name
    let w ← w.write "=\""
    let w ← w.write value
    w.write "\""

/-- Method `attr_esc` (escapes name as identifier and value as text). -/
def XmlWriter.attr_esc (w : XmlWriter) (name value : String) : XmlRes :=
  if !w.opened then
    .error (.panicked "Attempted to write attr to elem, when no elem was opened", w)
  else do
    let w ← w.write " "
    let w ← w.escape name true
    let w ← w.write "=\""
    let w ← w.escape value false
    w.write "\""

/-- The per-pair loop of method `ns_decl`. -/
def nsDeclGo (w : XmlWriter) : List (Option String × String) → XmlRes
  | [] => .ok w
  | item :: rest => do
      let name := match item.1 with
        | some pre => "xmlns:" ++ pre
        | none => "xmlns"
      let w ← w.attr name item.2
      nsDeclGo w rest

/-- Method `ns_decl`. -/
def XmlWriter.ns_decl (w : XmlWriter) (ns_map : List (Option String × String)) : XmlRes :=
  if !w.opened then
    .error (.panicked "Attempted to write namespace decl to elem, when no elem was opened", w)
  else
    nsDeclGo w ns_map

/-- Method `text`. -/
def XmlWriter.text (w : XmlWriter) (t : String) : XmlRes := do
  let w := { w with children := true }
  let w ← w.close_elem
  let w := markTop w
  let w := { w with children := false }
  let w ← if w.very_pretty then w.indent else .ok w
  w.escape t false

/-- Method `cdata`. -/
def XmlWriter.cdata (w : XmlWriter) (cd : String) : XmlRes := do
  let w := { w with children := true }
  let w ← w.close_elem
  let w := markTop w
  let w ← if w.very_pretty then w.indent else .ok w
  let w := { w with children := false }
  let w ← w.write "<![CDATA["
  let w ← w.write cd
  w.write "]]>"

/-- Method `comment`. -/
def XmlWriter.comment (w : XmlWriter) (c : String) : XmlRes := do
  let w := { w with children := true }
  let w ← w.close_elem
  let w := markTop w
  let w ← w.indent
  let w := { w with children := false }
  let w ← w.write "<!-- "
  let w ← w.escape c false
  w.write " -->"

/-- The `for _ in 0..self.stack.len()` loop of method `close` (the loop
bound is taken once, before the first iteration). -/
def closeGo (w : XmlWriter) : Nat → XmlRes
  | 0 => .ok w
  | n + 1 => do
      let w ← w.end_elem
      closeGo w n

/-- Method `close`: ends every element still open. -/
def XmlWriter.close (w : XmlWriter) : XmlRes :=
  closeGo w w.stack.length

/-- One public API call, for reasoning about call sequences.
`set_namespace` models the public-field assignment `xml.namespace = v`. -/
inductive Op where
  | dtd (encoding : String)
  | begin_elem (name : String)
  | end_elem
  | elem (name : String)
  | elem_text (name t : String)
  | empty_elem (name : String)
  | attr (name value : String)
  | attr_esc (name value : String)
  | ns_decl (ns_map : List (Option String × String))
  | text (t : String)
  | cdata (t : String)
  | comment (c : String)
  | close
  | set_namespace (nsv : Option String)
  | set_compact_mode
  | set_pretty_mode
  | set_very_pretty_mode
  deriving Repr, DecidableEq

/-- Dispatch one API call. -/
def runOp (w : XmlWriter) : Op → XmlRes
  | .dtd e => w.dtd e
  | .begin_elem n => w.begin_elem n
  | .end_elem => w.end_elem
  | .elem n => w.elem n
  | .elem_text n t => w.elem_text n t
  | .empty_elem n => w.empty_elem n
  | .attr n v => w.attr n v
  | .attr_esc n v => w.attr_esc n v
  | .ns_decl m => w.ns_decl m
  | .text t => w.text t
  | .cdata t => w.cdata t
  | .comment c => w.comment c
  | .close => w.close
  | .set_namespace v => .ok { w with ns := v }
  | .set_compact_mode => .ok w.set_compact_mode
  | .set_pretty_mode => .ok w.set_pretty_mode
  | .set_very_pretty_mode => .ok w.set_very_pretty_mode

/-- Run a sequence of API calls, stopping at the first error. -/
def runSeq (w : XmlWriter) : List Op → XmlRes
  | [] => .ok w
  | op :: ops => do
      let w ← runOp w op
      runSeq w ops

/-- String-level meaning of the `escape` loop on a character list. -/
def escapeStrL (ident : Bool) : List Char → String
  | [] => ""
  | c :: cs => escapeChar ident c ++ escapeStrL ident cs

/-- String-level meaning of method `escape`. -/
def escapeStr (ident : Bool) (t : String) : String :=
  escapeStrL ident t.data

/-- What `ns_prefix` contributes to the output for a given namespace. -/
def nsStr : Option String → String
  | none => ""
  | some p => p ++ ":"

/-- What the indentation loop contributes: two spaces per level. -/
def indentStr : Nat → String
  | 0 => ""
  | n + 1 => "  " ++ indentStr n

/-- No newline character occurs in the string. -/
def noNL (s : String) : Bool :=
  s.data.all fun c => !(c == '\n')

/-- `noNL` lifted to an optional namespace. -/
def optNoNL : Option String → Bool
  | none => true
  | some s => noNL s

/-- Invariant for Compact-mode runs: the writer is in compact mode, the sink
has accepted no newline, and every name on the stacks (which later feeds
closing tags) is newline-free. -/
def compactInv (w : XmlWriter) : Bool :=
  noNL w.out && !w.pretty && !w.very_pretty &&
    w.stack.all (fun p => noNL p.1) && w.ns_stack.all optNoNL && optNoNL w.ns

/-- The mode invariant: `very_pretty` implies `pretty`. -/
def modeInv (w : XmlWriter) : Bool :=
  !w.very_pretty || w.pretty

/-- Both formatting flags have the given values. -/
def ModeP (p vp : Bool) (u : XmlWriter) : Prop :=
  u.pretty = p ∧ u.very_pretty = vp

/-- The predicate holds of the writer state an operation resulted in, whether
the operation succeeded or stopped with an error. -/
def ResSat (P : XmlWriter → Prop) : XmlRes → Prop
  | .ok u => P u
  | .error (_, u) => P u

/-- Number of stack pushes an API call performs (1 for `begin_elem`). -/
def beginN : Op → Nat
  | .begin_elem _ => 1
  | _ => 0

/-- Number of explicit `end_elem` calls an API call performs. -/
def endN : Op → Nat
  | .end_elem => 1
  | _ => 0

/-- Total `begin_elem` count of a call sequence. -/
def countBegins (ops : List Op) : Nat :=
  (ops.map beginN).sum

/-- Total `end_elem` count of a call sequence. -/
def countEnds (ops : List Op) : Nat :=
  (ops.map endN).sum

/-- Whether the call is `close`. -/
def isClose : Op → Bool
  | .close => true
  | _ => false

/-- The sequence contains no `close` call. -/
def closeFree (ops : List Op) : Bool :=
  ops.all fun o => !isClose o

/-- The call neither is `dtd` (whose declaration line ends in a literal
newline) nor switches to a pretty mode, and all its string arguments are
newline-free. -/
def noNLOp : Op → Bool
  | .dtd _ => false
  | .set_pretty_mode => false
  | .set_very_pretty_mode => false
  | .begin_elem n => noNL n
  | .end_elem => true
  | .elem n => noNL n
  | .elem_text n t => noNL n && noNL t
  | .empty_elem n => noNL n
  | .attr n v => noNL n && noNL v
  | .attr_esc n v => noNL n && noNL v
  | .ns_decl m => m.all fun p => optNoNL p.1 && noNL p.2
  | .text t => noNL t
  | .cdata t => noNL t
  | .comment c => noNL c
  | .close => true
  | .set_namespace o => optNoNL o
  | .set_compact_mode => true

/-- The ways a single child can be appended under an open element through an
operation that marks its parent as having children. -/
inductive ChildOp where
  | text (t : String)
  | comment (c : String)
  | cdata (t : String)
  | empty_elem (n : String)
  | begin_end (n : String)
  deriving Repr, DecidableEq

/-- The API calls appending the child. -/
def ChildOp.toOps : ChildOp → List Op
  | .text t => [.text t]
  | .comment c => [.comment c]
  | .cdata t => [.cdata t]
  | .empty_elem n => [.empty_elem n]
  | .begin_end n => [.begin_elem n, .end_elem]

/-- The bytes the child itself contributes in FullyPretty mode at depth 1. -/
def ChildOp.core : ChildOp → String
  | .text t => escapeStr false t
  | .comment c => "<!-- " ++ (escapeStr false c ++ " -->")
  | .cdata t => "<![CDATA[" ++ (t ++ "]]>")
  | .empty_elem n => "<" ++ (n ++ "/>")
  | .begin_end n => "<" ++ (n ++ "/>")

/-- The call sequence exercised by the crate's own test suite (`compact`,
`pretty` and `very_pretty` tests share it). -/
def crateTestOps : List Op :=
  [ .begin_elem "OTDS",
    .ns_decl [(none, "http://localhost/"), (some "st", "http://127.0.0.1/")],
    .comment "nice to see you",
    .set_namespace (some "st"),
    .empty_elem "success",
    .begin_elem "node",
    .attr_esc "name" "\"123\"",
    .attr "id" "abc",
    .attr "'unescaped'" "\"123\"",
    .text "'text'",
    .end_elem,
    .set_namespace none,
    .begin_elem "stuff",
    .cdata "blablab",
    .close ]

/-- Destructure a successful monadic bind on `XmlRes`. -/
theorem bindOk {m : XmlRes} {k : XmlWriter → XmlRes} {w' : XmlWriter}
    (h : (m >>= k) = .ok w') : ∃ w1, m = .ok w1 ∧ k w1 = .ok w' := by
  cases m with
  | ok a => exact ⟨a, rfl, h⟩
  | error e => exact absurd h (by simp [Bind.bind, Except.bind])

/-- `ResSat` composes along a monadic bind. -/
theorem resSat_bind {P : XmlWriter → Prop} {m : XmlRes} {k : XmlWriter → XmlRes}
    (hm : ResSat P m) (hk : ∀ u, P u → ResSat P (k u)) : ResSat P (m >>= k) := by
  cases m with
  | ok a => exact hk a hm
  | error e => exact hm

/-- With a never-failing sink, `write` appends to the accepted bytes. -/
theorem write_none {w : XmlWriter} (s : String) (h : w.failAfter = none) :
    w.write s = .ok { w with out := w.out ++ s } := by
  simp [XmlWriter.write, h]

/-- With a never-failing sink, the indentation loop appends two spaces per
level. -/
theorem writeIndent_none {w : XmlWriter} (n : Nat) (h : w.failAfter = none) :
    writeIndent w n = .ok { w with out := w.out ++ indentStr n } := by
  induction n generalizing w with
  | zero => simp [writeIndent, indentStr, String.append_empty]
  | succ m ih =>
      rw [writeIndent, write_none _ h]
      show writeIndent _ m = _
      have h2 : ({ w with out := w.out ++ "  " } : XmlWriter).failAfter = none := h
      rw [ih h2]
      simp [indentStr, String.append_assoc]

/-- With a never-failing sink, the escape loop appends the escaped chunks. -/
theorem escapeGo_none {cs : List Char} {w : XmlWriter} (ident : Bool)
    (h : w.failAfter = none) :
    escapeGo ident w cs = .ok { w with out := w.out ++ escapeStrL ident cs } := by
  induction cs generalizing w with
  | nil => simp [escapeGo, escapeStrL, String.append_empty]
  | cons c cs ih =>
      rw [escapeGo, write_none _ h]
      show escapeGo ident _ cs = _
      have h2 : ({ w with out := w.out ++ escapeChar ident c } : XmlWriter).failAfter = none := h
      rw [ih h2]
      simp [escapeStrL, String.append_assoc]

/-- With a never-failing sink, `escape` appends the escaped text. -/
theorem escape_none {w : XmlWriter} (t : String) (ident : Bool)
    (h : w.failAfter = none) :
    w.escape t ident = .ok { w with out := w.out ++ escapeStr ident t } :=
  escapeGo_none ident h

/-- The embedding reproduces the crate's `compact` test byte for byte. -/
theorem crate_test_compact :
    (runSeq (XmlWriter.compact_mode none 0) crateTestOps).map (fun w => w.out)
      = .ok "<OTDS xmlns=\"http://localhost/\" xmlns:st=\"http://127.0.0.1/\"><!-- nice to see you --><st:success/><st:node name=\"&quot;123&quot;\" id=\"abc\" 'unescaped'=\"\"123\"\">&apos;text&apos;</st:node><stuff><![CDATA[blablab]]></stuff></OTDS>" := by
  rfl

/-- The embedding reproduces the crate's `pretty` test byte for byte. -/
theorem crate_test_pretty :
    (runSeq (XmlWriter.pretty_mode none 0) crateTestOps).map (fun w => w.out)
      = .ok "<OTDS xmlns=\"http://localhost/\" xmlns:st=\"http://127.0.0.1/\">\n  <!-- nice to see you -->\n  <st:success/>\n  <st:node name=\"&quot;123&quot;\" id=\"abc\" 'unescaped'=\"\"123\"\">&apos;text&apos;</st:node>\n  <stuff><![CDATA[blablab]]></stuff></OTDS>" := by
  rfl

/-- The embedding reproduces the crate's `very_pretty` test byte for
byte. -/
theorem crate_test_very_pretty :
    (runSeq (XmlWriter.very_pretty_mode none 0) crateTestOps).map (fun w => w.out)
      = .ok "<OTDS xmlns=\"http://localhost/\" xmlns:st=\"http://127.0.0.1/\">\n  <!-- nice to see you -->\n  <st:success/>\n  <st:node name=\"&quot;123&quot;\" id=\"abc\" 'unescaped'=\"\"123\"\">\n    &apos;text&apos;\n  </st:node>\n  <stuff>\n    <![CDATA[blablab]]>\n  </stuff>\n</OTDS>" := by
  rfl

/-- The embedding reproduces the crate's `comment` test. -/
theorem crate_test_comment :
    (runSeq (XmlWriter.pretty_mode none 0) [.comment "comment"]).map (fun w => w.out)
      = .ok "<!-- comment -->" := by
  rfl

/-! Projection lemmas for `markTop`: it only touches the stack, preserving
its length. -/

@[simp] theorem markTop_out (w : XmlWriter) : (markTop w).out = w.out := by
  unfold markTop; split <;> rfl

@[simp] theorem markTop_ns_stack (w : XmlWriter) : (markTop w).ns_stack = w.ns_stack := by
  unfold markTop; split <;> rfl

@[simp] theorem markTop_opened (w : XmlWriter) : (markTop w).opened = w.opened := by
  unfold markTop; split <;> rfl

@[simp] theorem markTop_pretty (w : XmlWriter) : (markTop w).pretty = w.pretty := by
  unfold markTop; split <;> rfl

@[simp] theorem markTop_very_pretty (w : XmlWriter) : (markTop w).very_pretty = w.very_pretty := by
  unfold markTop; split <;> rfl

@[simp] theorem markTop_ns (w : XmlWriter) : (markTop w).ns = w.ns := by
  unfold markTop; split <;> rfl

@[simp] theorem markTop_children (w : XmlWriter) : (markTop w).children = w.children := by
  unfold markTop; split <;> rfl

@[simp] theorem markTop_newline (w : XmlWriter) : (markTop w).newline = w.newline := by
  unfold markTop; split <;> rfl

@[simp] theorem markTop_failAfter (w : XmlWriter) : (markTop w).failAfter = w.failAfter := by
  unfold markTop; split <;> rfl

@[simp] theorem markTop_errv (w : XmlWriter) : (markTop w).errv = w.errv := by
  unfold markTop; split <;> rfl

@[simp] theorem markTop_stack_length (w : XmlWriter) :
    (markTop w).stack.length = w.stack.length := by
  unfold markTop; split <;> simp_all

/-! Mode-flag preservation: no writer method ever changes `pretty` or
`very_pretty`; only the three mode setters do. -/

/-- Weaken the predicate of a `ResSat`. -/
theorem resSat_imp {P Q : XmlWriter → Prop} {r : XmlRes}
    (h : ∀ u, P u → Q u) (hr : ResSat P r) : ResSat Q r := by
  cases r with
  | ok u => exact h u hr
  | error e => obtain ⟨e, u⟩ := e; exact h u hr

theorem write_modeP {p vp : Bool} {w : XmlWriter} (s : String) (h : ModeP p vp w) :
    ResSat (ModeP p vp) (w.write s) := by
  unfold XmlWriter.write; split <;> exact h

theorem writeIndent_modeP {p vp : Bool} {w : XmlWriter} {n : Nat} (h : ModeP p vp w) :
    ResSat (ModeP p vp) (writeIndent w n) := by
  induction n generalizing w with
  | zero => exact h
  | succ m ih =>
      exact resSat_bind (write_modeP _ h) fun u hu => ih hu

theorem indent_modeP {p vp : Bool} {w : XmlWriter} (h : ModeP p vp w) :
    ResSat (ModeP p vp) w.indent := by
  unfold XmlWriter.indent
  dsimp only
  split
  · split
    · exact resSat_bind (write_modeP _ h) fun u hu => writeIndent_modeP hu
    · exact writeIndent_modeP h
  · split
    · exact resSat_bind (write_modeP _ h) fun u hu => writeIndent_modeP hu
    · exact h

theorem nsPre_modeP {p vp : Bool} {w : XmlWriter} (nsv : Option String) (h : ModeP p vp w) :
    ResSat (ModeP p vp) (w.nsPre nsv) := by
  unfold XmlWriter.nsPre
  split
  · exact resSat_bind (write_modeP _ h) fun u hu => write_modeP _ hu
  · exact h

theorem close_elem_modeP {p vp : Bool} {w : XmlWriter} (h : ModeP p vp w) :
    ResSat (ModeP p vp) w.close_elem := by
  unfold XmlWriter.close_elem
  split
  · dsimp only
    split
    · exact resSat_bind (write_modeP _ h) fun u hu =>
        show ResSat (ModeP p vp) (Except.ok { u with opened := false }) from hu
    · exact resSat_bind (write_modeP _ h) fun u hu =>
        show ResSat (ModeP p vp) (Except.ok { u with opened := false }) from hu
  · exact h

theorem escapeGo_modeP {p vp : Bool} {w : XmlWriter} {ident : Bool} {cs : List Char}
    (h : ModeP p vp w) : ResSat (ModeP p vp) (escapeGo ident w cs) := by
  induction cs generalizing w with
  | nil => exact h
  | cons c cs ih => exact resSat_bind (write_modeP _ h) fun u hu => ih hu

theorem escape_modeP {p vp : Bool} {w : XmlWriter} (t : String) (ident : Bool)
    (h : ModeP p vp w) : ResSat (ModeP p vp) (w.escape t ident) :=
  escapeGo_modeP h

theorem dtd_modeP {p vp : Bool} {w : XmlWriter} (e : String) (h : ModeP p vp w) :
    ResSat (ModeP p vp) (w.dtd e) := by
  unfold XmlWriter.dtd
  exact resSat_bind (write_modeP _ h) fun u hu =>
    resSat_bind (write_modeP _ hu) fun u2 hu2 => write_modeP _ hu2

theorem markTop_modeP {p vp : Bool} {w : XmlWriter} (h : ModeP p vp w) :
    ModeP p vp (markTop w) :=
  ⟨by simpa using h.1, by simpa using h.2⟩

theorem begin_elem_modeP {p vp : Bool} {w : XmlWriter} (name : String) (h : ModeP p vp w) :
    ResSat (ModeP p vp) (w.begin_elem name) := by
  unfold XmlWriter.begin_elem
  refine resSat_bind (close_elem_modeP h) fun u hu => ?_
  refine resSat_bind (indent_modeP (markTop_modeP hu)) fun u2 hu2 => ?_
  refine resSat_bind (write_modeP _ hu2) fun u3 hu3 => ?_
  exact resSat_bind (nsPre_modeP _ hu3) fun u4 hu4 => write_modeP _ hu4

theorem end_elem_modeP {p vp : Bool} {w : XmlWriter} (h : ModeP p vp w) :
    ResSat (ModeP p vp) w.end_elem := by
  unfold XmlWriter.end_elem
  refine resSat_bind (close_elem_modeP h) fun u hu => ?_
  split
  · exact hu
  dsimp only
  split
  · exact hu
  split
  · exact hu
  split
  · exact resSat_bind (indent_modeP hu) fun u2 hu2 =>
      resSat_bind (write_modeP _ hu2) fun u3 hu3 =>
        resSat_bind (nsPre_modeP _ hu3) fun u4 hu4 =>
          resSat_bind (write_modeP _ hu4) fun u5 hu5 => write_modeP _ hu5
  · refine resSat_bind ?_ fun u2 hu2 =>
      resSat_bind (write_modeP _ hu2) fun u3 hu3 =>
        resSat_bind (nsPre_modeP _ hu3) fun u4 hu4 =>
          resSat_bind (write_modeP _ hu4) fun u5 hu5 => write_modeP _ hu5
    exact hu

theorem elem_modeP {p vp : Bool} {w : XmlWriter} (name : String) (h : ModeP p vp w) :
    ResSat (ModeP p vp) (w.elem name) := by
  unfold XmlWriter.elem
  refine resSat_bind (close_elem_modeP h) fun u hu => ?_
  refine resSat_bind (indent_modeP hu) fun u2 hu2 => ?_
  refine resSat_bind (write_modeP _ hu2) fun u3 hu3 => ?_
  exact resSat_bind (nsPre_modeP _ hu3) fun u4 hu4 =>
    resSat_bind (write_modeP _ hu4) fun u5 hu5 => write_modeP _ hu5

theorem elem_text_modeP {p vp : Bool} {w : XmlWriter} (name t : String) (h : ModeP p vp w) :
    ResSat (ModeP p vp) (w.elem_text name t) := by
  unfold XmlWriter.elem_text
  refine resSat_bind (close_elem_modeP h) fun u hu => ?_
  refine resSat_bind (indent_modeP hu) fun u2 hu2 => ?_
  refine resSat_bind (write_modeP _ hu2) fun u3 hu3 => ?_
  refine resSat_bind (nsPre_modeP _ hu3) fun u4 hu4 => ?_
  refine resSat_bind (write_modeP _ hu4) fun u5 hu5 => ?_
  refine resSat_bind (write_modeP _ hu5) fun u6 hu6 => ?_
  refine resSat_bind (escape_modeP _ _ hu6) fun u7 hu7 => ?_
  refine resSat_bind (write_modeP _ hu7) fun u8 hu8 => ?_
  exact resSat_bind (write_modeP _ hu8) fun u9 hu9 => write_modeP _ hu9

theorem empty_elem_modeP {p vp : Bool} {w : XmlWriter} (name : String) (h : ModeP p vp w) :
    ResSat (ModeP p vp) (w.empty_elem name) := by
  unfold XmlWriter.empty_elem
  refine resSat_bind (close_elem_modeP h) fun u hu => ?_
  refine resSat_bind (indent_modeP (markTop_modeP hu)) fun u2 hu2 => ?_
  refine resSat_bind (write_modeP _ hu2) fun u3 hu3 => ?_
  exact resSat_bind (nsPre_modeP _ hu3) fun u4 hu4 =>
    resSat_bind (write_modeP _ hu4) fun u5 hu5 => write_modeP _ hu5

theorem attr_modeP {p vp : Bool} {w : XmlWriter} (n v : String) (h : ModeP p vp w) :
    ResSat (ModeP p vp) (w.attr n v) := by
  unfold XmlWriter.attr
  split
  · exact h
  refine resSat_bind (write_modeP _ h) fun u hu => ?_
  refine resSat_bind (write_modeP _ hu) fun u2 hu2 => ?_
  exact resSat_bind (write_modeP _ hu2) fun u3 hu3 =>
    resSat_bind (write_modeP _ hu3) fun u4 hu4 => write_modeP _ hu4

theorem attr_esc_modeP {p vp : Bool} {w : XmlWriter} (n v : String) (h : ModeP p vp w) :
    ResSat (ModeP p vp) (w.attr_esc n v) := by
  unfold XmlWriter.attr_esc
  split
  · exact h
  refine resSat_bind (write_modeP _ h) fun u hu => ?_
  refine resSat_bind (escape_modeP _ _ hu) fun u2 hu2 => ?_
  refine resSat_bind (write_modeP _ hu2) fun u3 hu3 => ?_
  exact resSat_bind (escape_modeP _ _ hu3) fun u4 hu4 => write_modeP _ hu4

theorem nsDeclGo_modeP {p vp : Bool} {w : XmlWriter} {m : List (Option String × String)}
    (h : ModeP p vp w) : ResSat (ModeP p vp) (nsDeclGo w m) := by
  induction m generalizing w with
  | nil => exact h
  | cons item rest ih =>
      exact resSat_bind (attr_modeP _ _ h) fun u hu => ih hu

theorem ns_decl_modeP {p vp : Bool} {w : XmlWriter} (m : List (Option String × String))
    (h : ModeP p vp w) : ResSat (ModeP p vp) (w.ns_decl m) := by
  unfold XmlWriter.ns_decl
  split
  · exact h
  · exact nsDeclGo_modeP h

theorem text_modeP {p vp : Bool} {w : XmlWriter} (t : String) (h : ModeP p vp w) :
    ResSat (ModeP p vp) (w.text t) := by
  unfold XmlWriter.text
  refine resSat_bind (close_elem_modeP h) fun u hu => ?_
  dsimp only
  split
  · exact resSat_bind (indent_modeP (markTop_modeP hu)) fun u2 hu2 => escape_modeP _ _ hu2
  · exact escape_modeP _ _ (markTop_modeP hu)

theorem cdata_modeP {p vp : Bool} {w : XmlWriter} (t : String) (h : ModeP p vp w) :
    ResSat (ModeP p vp) (w.cdata t) := by
  unfold XmlWriter.cdata
  refine resSat_bind (close_elem_modeP h) fun u hu => ?_
  dsimp only
  split
  · exact resSat_bind (indent_modeP (markTop_modeP hu)) fun u2 hu2 =>
      resSat_bind (write_modeP _ hu2) fun u3 hu3 =>
        resSat_bind (write_modeP _ hu3) fun u4 hu4 =>
          write_modeP _ hu4
  · refine resSat_bind
      (show ResSat (ModeP p vp) (Except.ok (markTop u)) from markTop_modeP hu) fun u2 hu2 => ?_
    exact resSat_bind (write_modeP _ hu2) fun u3 hu3 =>
      resSat_bind (write_modeP _ hu3) fun u4 hu4 => write_modeP _ hu4

theorem comment_modeP {p vp : Bool} {w : XmlWriter} (c : String) (h : ModeP p vp w) :
    ResSat (ModeP p vp) (w.comment c) := by
  unfold XmlWriter.comment
  refine resSat_bind (close_elem_modeP h) fun u hu => ?_
  refine resSat_bind (indent_modeP (markTop_modeP hu)) fun u2 hu2 => ?_
  refine resSat_bind (write_modeP _ hu2) fun u3 hu3 => ?_
  exact resSat_bind (escape_modeP _ _ hu3) fun u4 hu4 => write_modeP _ hu4

theorem closeGo_modeP {p vp : Bool} {w : XmlWriter} {n : Nat} (h : ModeP p vp w) :
    ResSat (ModeP p vp) (closeGo w n) := by
  induction n generalizing w with
  | zero => exact h
  | succ m ih => exact resSat_bind (end_elem_modeP h) fun u hu => ih hu

theorem close_modeP {p vp : Bool} {w : XmlWriter} (h : ModeP p vp w) :
    ResSat (ModeP p vp) w.close :=
  closeGo_modeP h

/-! Stack-shape lemmas: which operations touch the two stacks, and how. -/

theorem write_ok_stacks {w : XmlWriter} {s : String} {u : XmlWriter}
    (h : w.write s = .ok u) : u.stack = w.stack ∧ u.ns_stack = w.ns_stack := by
  unfold XmlWriter.write at h
  split at h
  · injection h with h
    subst h
    exact ⟨rfl, rfl⟩
  · cases h
  · injection h with h
    subst h
    exact ⟨rfl, rfl⟩

theorem writeIndent_ok_stacks {w : XmlWriter} {n : Nat} {u : XmlWriter}
    (h : writeIndent w n = .ok u) : u.stack = w.stack ∧ u.ns_stack = w.ns_stack := by
  induction n generalizing w with
  | zero =>
      unfold writeIndent at h
      cases h
      exact ⟨rfl, rfl⟩
  | succ m ih =>
      unfold writeIndent at h
      obtain ⟨w1, h1, h2⟩ := bindOk h
      obtain ⟨e1, e2⟩ := write_ok_stacks h1
      obtain ⟨e3, e4⟩ := ih h2
      exact ⟨e3.trans e1, e4.trans e2⟩

theorem indent_ok_stacks {w u : XmlWriter}
    (h : w.indent = .ok u) : u.stack = w.stack ∧ u.ns_stack = w.ns_stack := by
  unfold XmlWriter.indent at h
  dsimp only at h
  split at h
  · split at h
    · obtain ⟨w1, h1, h2⟩ := bindOk h
      obtain ⟨e1, e2⟩ := write_ok_stacks h1
      obtain ⟨e3, e4⟩ := writeIndent_ok_stacks h2
      exact ⟨e3.trans e1, e4.trans e2⟩
    · obtain ⟨w1, h1, h2⟩ := bindOk h
      cases h1
      obtain ⟨e3, e4⟩ := writeIndent_ok_stacks h2
      exact ⟨e3, e4⟩
  · split at h
    · obtain ⟨w1, h1, h2⟩ := bindOk h
      obtain ⟨e1, e2⟩ := write_ok_stacks h1
      obtain ⟨e3, e4⟩ := writeIndent_ok_stacks h2
      exact ⟨e3.trans e1, e4.trans e2⟩
    · cases h
      exact ⟨rfl, rfl⟩

theorem nsPre_ok_stacks {w : XmlWriter} {nsv : Option String} {u : XmlWriter}
    (h : w.nsPre nsv = .ok u) : u.stack = w.stack ∧ u.ns_stack = w.ns_stack := by
  unfold XmlWriter.nsPre at h
  split at h
  · obtain ⟨w1, h1, h2⟩ := bindOk h
    obtain ⟨e1, e2⟩ := write_ok_stacks h1
    obtain ⟨e3, e4⟩ := write_ok_stacks h2
    exact ⟨e3.trans e1, e4.trans e2⟩
  · cases h
    exact ⟨rfl, rfl⟩

theorem close_elem_ok_stacks {w u : XmlWriter}
    (h : w.close_elem = .ok u) : u.stack = w.stack ∧ u.ns_stack = w.ns_stack := by
  unfold XmlWriter.close_elem at h
  split at h
  · dsimp only at h
    split at h <;>
    · obtain ⟨w1, h1, h2⟩ := bindOk h
      obtain ⟨e1, e2⟩ := write_ok_stacks h1
      cases h2
      exact ⟨e1, e2⟩
  · cases h
    exact ⟨rfl, rfl⟩

theorem escapeGo_ok_stacks {ident : Bool} {cs : List Char} {w u : XmlWriter}
    (h : escapeGo ident w cs = .ok u) : u.stack = w.stack ∧ u.ns_stack = w.ns_stack := by
  induction cs generalizing w with
  | nil =>
      unfold escapeGo at h
      cases h
      exact ⟨rfl, rfl⟩
  | cons c cs ih =>
      unfold escapeGo at h
      obtain ⟨w1, h1, h2⟩ := bindOk h
      obtain ⟨e1, e2⟩ := write_ok_stacks h1
      obtain ⟨e3, e4⟩ := ih h2
      exact ⟨e3.trans e1, e4.trans e2⟩

theorem escape_ok_stacks {w : XmlWriter} {t : String} {ident : Bool} {u : XmlWriter}
    (h : w.escape t ident = .ok u) : u.stack = w.stack ∧ u.ns_stack = w.ns_stack :=
  escapeGo_ok_stacks h

theorem dtd_ok_stacks {w : XmlWriter} {e : String} {u : XmlWriter}
    (h : w.dtd e = .ok u) : u.stack = w.stack ∧ u.ns_stack = w.ns_stack := by
  unfold XmlWriter.dtd at h
  obtain ⟨w1, h1, h2⟩ := bindOk h
  obtain ⟨w2, h3, h4⟩ := bindOk h2
  obtain ⟨e1, e2⟩ := write_ok_stacks h1
  obtain ⟨e3, e4⟩ := write_ok_stacks h3
  obtain ⟨e5, e6⟩ := write_ok_stacks h4
  exact ⟨(e5.trans e3).trans e1, (e6.trans e4).trans e2⟩

theorem elem_ok_stacks {w : XmlWriter} {n : String} {u : XmlWriter}
    (h : w.elem n = .ok u) : u.stack = w.stack ∧ u.ns_stack = w.ns_stack := by
  unfold XmlWriter.elem at h
  obtain ⟨w1, h1, h2⟩ := bindOk h
  obtain ⟨w2, h3, h4⟩ := bindOk h2
  obtain ⟨w3, h5, h6⟩ := bindOk h4
  obtain ⟨w4, h7, h8⟩ := bindOk h6
  obtain ⟨w5, h9, h10⟩ := bindOk h8
  obtain ⟨e1, e2⟩ := close_elem_ok_stacks h1
  obtain ⟨e3, e4⟩ := indent_ok_stacks h3
  obtain ⟨e5, e6⟩ := write_ok_stacks h5
  obtain ⟨e7, e8⟩ := nsPre_ok_stacks h7
  obtain ⟨e9, e10⟩ := write_ok_stacks h9
  obtain ⟨e11, e12⟩ := write_ok_stacks h10
  exact ⟨((((e11.trans e9).trans e7).trans e5).trans e3).trans e1,
         ((((e12.trans e10).trans e8).trans e6).trans e4).trans e2⟩

theorem elem_text_ok_stacks {w : XmlWriter} {n t : String} {u : XmlWriter}
    (h : w.elem_text n t = .ok u) : u.stack = w.stack ∧ u.ns_stack = w.ns_stack := by
  unfold XmlWriter.elem_text at h
  obtain ⟨w1, h1, h2⟩ := bindOk h
  obtain ⟨w2, h3, h4⟩ := bindOk h2
  obtain ⟨w3, h5, h6⟩ := bindOk h4
  obtain ⟨w4, h7, h8⟩ := bindOk h6
  obtain ⟨w5, h9, h10⟩ := bindOk h8
  obtain ⟨w6, h11, h12⟩ := bindOk h10
  obtain ⟨w7, h13, h14⟩ := bindOk h12
  obtain ⟨w8, h15, h16⟩ := bindOk h14
  obtain ⟨w9, h17, h18⟩ := bindOk h16
  obtain ⟨e1, e2⟩ := close_elem_ok_stacks h1
  obtain ⟨e3, e4⟩ := indent_ok_stacks h3
  obtain ⟨e5, e6⟩ := write_ok_stacks h5
  obtain ⟨e7, e8⟩ := nsPre_ok_stacks h7
  obtain ⟨e9, e10⟩ := write_ok_stacks h9
  obtain ⟨e11, e12⟩ := write_ok_stacks h11
  obtain ⟨e13, e14⟩ := escape_ok_stacks h13
  obtain ⟨e15, e16⟩ := write_ok_stacks h15
  obtain ⟨e17, e18⟩ := write_ok_stacks h17
  obtain ⟨e19, e20⟩ := write_ok_stacks h18
  exact ⟨((((((((e19.trans e17).trans e15).trans e13).trans e11).trans e9).trans e7).trans e5).trans e3).trans e1,
         ((((((((e20.trans e18).trans e16).trans e14).trans e12).trans e10).trans e8).trans e6).trans e4).trans e2⟩

theorem attr_ok_stacks {w : XmlWriter} {n v : String} {u : XmlWriter}
    (h : w.attr n v = .ok u) : u.stack = w.stack ∧ u.ns_stack = w.ns_stack := by
  unfold XmlWriter.attr at h
  split at h
  · cases h
  obtain ⟨w1, h1, h2⟩ := bindOk h
  obtain ⟨w2, h3, h4⟩ := bindOk h2
  obtain ⟨w3, h5, h6⟩ := bindOk h4
  obtain ⟨w4, h7, h8⟩ := bindOk h6
  obtain ⟨e1, e2⟩ := write_ok_stacks h1
  obtain ⟨e3, e4⟩ := write_ok_stacks h3
  obtain ⟨e5, e6⟩ := write_ok_stacks h5
  obtain ⟨e7, e8⟩ := write_ok_stacks h7
  obtain ⟨e9, e10⟩ := write_ok_stacks h8
  exact ⟨(((e9.trans e7).trans e5).trans e3).trans e1,
         (((e10.trans e8).trans e6).trans e4).trans e2⟩

theorem attr_esc_ok_stacks {w : XmlWriter} {n v : String} {u : XmlWriter}
    (h : w.attr_esc n v = .ok u) : u.stack = w.stack ∧ u.ns_stack = w.ns_stack := by
  unfold XmlWriter.attr_esc at h
  split at h
  · cases h
  obtain ⟨w1, h1, h2⟩ := bindOk h
  obtain ⟨w2, h3, h4⟩ := bindOk h2
  obtain ⟨w3, h5, h6⟩ := bindOk h4
  obtain ⟨w4, h7, h8⟩ := bindOk h6
  obtain ⟨e1, e2⟩ := write_ok_stacks h1
  obtain ⟨e3, e4⟩ := escape_ok_stacks h3
  obtain ⟨e5, e6⟩ := write_ok_stacks h5
  obtain ⟨e7, e8⟩ := escape_ok_stacks h7
  obtain ⟨e9, e10⟩ := write_ok_stacks h8
  exact ⟨(((e9.trans e7).trans e5).trans e3).trans e1,
         (((e10.trans e8).trans e6).trans e4).trans e2⟩

theorem nsDeclGo_ok_stacks {m : List (Option String × String)} {w u : XmlWriter}
    (h : nsDeclGo w m = .ok u) : u.stack = w.stack ∧ u.ns_stack = w.ns_stack := by
  induction m generalizing w with
  | nil =>
      unfold nsDeclGo at h
      cases h
      exact ⟨rfl, rfl⟩
  | cons item rest ih =>
      unfold nsDeclGo at h
      obtain ⟨w1, h1, h2⟩ := bindOk h
      obtain ⟨e1, e2⟩ := attr_ok_stacks h1
      obtain ⟨e3, e4⟩ := ih h2
      exact ⟨e3.trans e1, e4.trans e2⟩

theorem ns_decl_ok_stacks {w : XmlWriter} {m : List (Option String × String)} {u : XmlWriter}
    (h : w.ns_decl m = .ok u) : u.stack = w.stack ∧ u.ns_stack = w.ns_stack := by
  unfold XmlWriter.ns_decl at h
  split at h
  · cases h
  · exact nsDeclGo_ok_stacks h

theorem text_ok_len {w : XmlWriter} {t : String} {u : XmlWriter}
    (h : w.text t = .ok u) :
    u.stack.length = w.stack.length ∧ u.ns_stack = w.ns_stack := by
  unfold XmlWriter.text at h
  obtain ⟨w1, h1, h2⟩ := bindOk h
  obtain ⟨e1, e2⟩ := close_elem_ok_stacks h1
  dsimp only at h2
  split at h2
  · obtain ⟨w2, h3, h4⟩ := bindOk h2
    obtain ⟨e3, e4⟩ := indent_ok_stacks h3
    obtain ⟨e5, e6⟩ := escape_ok_stacks h4
    constructor
    · simp [e5, e3, e1]
    · simp [e6, e4, e2]
  · obtain ⟨e5, e6⟩ := escape_ok_stacks h2
    constructor
    · simp [e5, e1]
    · simp [e6, e2]

theorem cdata_ok_len {w : XmlWriter} {t : String} {u : XmlWriter}
    (h : w.cdata t = .ok u) :
    u.stack.length = w.stack.length ∧ u.ns_stack = w.ns_stack := by
  unfold XmlWriter.cdata at h
  obtain ⟨w1, h1, h2⟩ := bindOk h
  obtain ⟨e1, e2⟩ := close_elem_ok_stacks h1
  dsimp only at h2
  split at h2
  · obtain ⟨w2, h3, h4⟩ := bindOk h2
    obtain ⟨e3, e4⟩ := indent_ok_stacks h3
    obtain ⟨w3, h5, h6⟩ := bindOk h4
    obtain ⟨w4, h7, h8⟩ := bindOk h6
    obtain ⟨e5, e6⟩ := write_ok_stacks h5
    obtain ⟨e7, e8⟩ := write_ok_stacks h7
    obtain ⟨e9, e10⟩ := write_ok_stacks h8
    constructor
    · simp [e9, e7, e5, e3, e1]
    · simp [e10, e8, e6, e4, e2]
  · obtain ⟨w2, h3, h4⟩ := bindOk h2
    injection h3 with h3
    subst h3
    obtain ⟨w3, h5, h6⟩ := bindOk h4
    obtain ⟨w4, h7, h8⟩ := bindOk h6
    obtain ⟨e5, e6⟩ := write_ok_stacks h5
    obtain ⟨e7, e8⟩ := write_ok_stacks h7
    obtain ⟨e9, e10⟩ := write_ok_stacks h8
    constructor
    · simp [e9, e7, e5, e1]
    · simp [e10, e8, e6, e2]

theorem comment_ok_len {w : XmlWriter} {c : String} {u : XmlWriter}
    (h : w.comment c = .ok u) :
    u.stack.length = w.stack.length ∧ u.ns_stack = w.ns_stack := by
  unfold XmlWriter.comment at h
  obtain ⟨w1, h1, h2⟩ := bindOk h
  obtain ⟨e1, e2⟩ := close_elem_ok_stacks h1
  dsimp only at h2
  obtain ⟨w2, h3, h4⟩ := bindOk h2
  obtain ⟨e3, e4⟩ := indent_ok_stacks h3
  obtain ⟨w3, h5, h6⟩ := bindOk h4
  obtain ⟨w4, h7, h8⟩ := bindOk h6
  obtain ⟨e5, e6⟩ := write_ok_stacks h5
  obtain ⟨e7, e8⟩ := escape_ok_stacks h7
  obtain ⟨e9, e10⟩ := write_ok_stacks h8
  constructor
  · simp [e9, e7, e5, e3, e1]
  · simp [e10, e8, e6, e4, e2]

theorem empty_elem_ok_len {w : XmlWriter} {n : String} {u : XmlWriter}
    (h : w.empty_elem n = .ok u) :
    u.stack.length = w.stack.length ∧ u.ns_stack = w.ns_stack := by
  unfold XmlWriter.empty_elem at h
  obtain ⟨w1, h1, h2⟩ := bindOk h
  obtain ⟨e1, e2⟩ := close_elem_ok_stacks h1
  dsimp only at h2
  obtain ⟨w2, h3, h4⟩ := bindOk h2
  obtain ⟨e3, e4⟩ := indent_ok_stacks h3
  obtain ⟨w3, h5, h6⟩ := bindOk h4
  obtain ⟨w4, h7, h8⟩ := bindOk h6
  obtain ⟨w5, h9, h10⟩ := bindOk h8
  obtain ⟨e5, e6⟩ := write_ok_stacks h5
  obtain ⟨e7, e8⟩ := nsPre_ok_stacks h7
  obtain ⟨e9, e10⟩ := write_ok_stacks h9
  obtain ⟨e11, e12⟩ := write_ok_stacks h10
  constructor
  · simp [e11, e9, e7, e5, e3, e1]
  · simp [e12, e10, e8, e6, e4, e2]

theorem begin_elem_ok_len {w : XmlWriter} {n : String} {u : XmlWriter}
    (h : w.begin_elem n = .ok u) :
    u.stack.length = w.stack.length + 1 ∧ u.ns_stack.length = w.ns_stack.length + 1 := by
  unfold XmlWriter.begin_elem at h
  obtain ⟨w1, h1, h2⟩ := bindOk h
  obtain ⟨e1, e2⟩ := close_elem_ok_stacks h1
  dsimp only at h2
  obtain ⟨w2, h3, h4⟩ := bindOk h2
  obtain ⟨e3, e4⟩ := indent_ok_stacks h3
  obtain ⟨w3, h5, h6⟩ := bindOk h4
  obtain ⟨w4, h7, h8⟩ := bindOk h6
  obtain ⟨e5, e6⟩ := write_ok_stacks h5
  obtain ⟨e7, e8⟩ := nsPre_ok_stacks h7
  obtain ⟨e9, e10⟩ := write_ok_stacks h8
  constructor
  · simp [e9, e7, e5, e3, e1]
  · simp [e10, e8, e6, e4, e2]

theorem end_elem_ok_len {w u : XmlWriter}
    (h : w.end_elem = .ok u) :
    u.stack.length + 1 = w.stack.length ∧ u.ns_stack.length + 1 = w.ns_stack.length := by
  unfold XmlWriter.end_elem at h
  obtain ⟨w1, h1, h2⟩ := bindOk h
  obtain ⟨e1, e2⟩ := close_elem_ok_stacks h1
  split at h2
  · cases h2
  rename_i nsv nsrest heqns
  dsimp only at h2
  split at h2
  · cases h2
  rename_i nm ch srest heqs
  split at h2
  · injection h2 with h2
    subst h2
    constructor
    · rw [← e1, heqs]
      simp
    · rw [← e2, heqns]
      simp
  split at h2
  · obtain ⟨w2, h3, h4⟩ := bindOk h2
    obtain ⟨e3, e4⟩ := indent_ok_stacks h3
    obtain ⟨w3, h5, h6⟩ := bindOk h4
    obtain ⟨w4, h7, h8⟩ := bindOk h6
    obtain ⟨w5, h9, h10⟩ := bindOk h8
    obtain ⟨e5, e6⟩ := write_ok_stacks h5
    obtain ⟨e7, e8⟩ := nsPre_ok_stacks h7
    obtain ⟨e9, e10⟩ := write_ok_stacks h9
    obtain ⟨e11, e12⟩ := write_ok_stacks h10
    constructor
    · rw [← e1, heqs]
      simp [e11, e9, e7, e5, e3]
    · rw [← e2, heqns]
      simp [e12, e10, e8, e6, e4]
  · obtain ⟨w2, h3, h4⟩ := bindOk h2
    injection h3 with h3
    subst h3
    obtain ⟨w3, h5, h6⟩ := bindOk h4
    obtain ⟨w4, h7, h8⟩ := bindOk h6
    obtain ⟨w5, h9, h10⟩ := bindOk h8
    obtain ⟨e5, e6⟩ := write_ok_stacks h5
    obtain ⟨e7, e8⟩ := nsPre_ok_stacks h7
    obtain ⟨e9, e10⟩ := write_ok_stacks h9
    obtain ⟨e11, e12⟩ := write_ok_stacks h10
    constructor
    · rw [← e1, heqs]
      simp [e11, e9, e7, e5]
    · rw [← e2, heqns]
      simp [e12, e10, e8, e6]

theorem closeGo_ok_nil {n : Nat} {w u : XmlWriter} (hl : w.stack.length = n)
    (h : closeGo w n = .ok u) : u.stack = [] := by
  induction n generalizing w with
  | zero =>
      unfold closeGo at h
      cases h
      exact List.length_eq_zero.mp hl
  | succ m ih =>
      unfold closeGo at h
      obtain ⟨w1, h1, h2⟩ := bindOk h
      obtain ⟨e1, _⟩ := end_elem_ok_len h1
      exact ih (by omega) h2

theorem close_ok_nil {w u : XmlWriter} (h : w.close = .ok u) : u.stack = [] :=
  closeGo_ok_nil rfl h

/-- Per-call stack-depth accounting: a successful non-`close` call changes
the depth by exactly its `begin_elem` count minus its `end_elem` count. -/
theorem runOp_ok_len {w u : XmlWriter} {op : Op} (hcl : isClose op = false)
    (h : runOp w op = .ok u) :
    u.stack.length + endN op = w.stack.length + beginN op := by
  cases op with
  | dtd e => obtain ⟨e1, _⟩ := dtd_ok_stacks h; simp [endN, beginN, e1]
  | begin_elem n => obtain ⟨e1, _⟩ := begin_elem_ok_len h; simp [endN, beginN, e1]
  | end_elem => obtain ⟨e1, _⟩ := end_elem_ok_len h; simp [endN, beginN]; omega
  | elem n => obtain ⟨e1, _⟩ := elem_ok_stacks h; simp [endN, beginN, e1]
  | elem_text n t => obtain ⟨e1, _⟩ := elem_text_ok_stacks h; simp [endN, beginN, e1]
  | empty_elem n => obtain ⟨e1, _⟩ := empty_elem_ok_len h; simp [endN, beginN, e1]
  | attr n v => obtain ⟨e1, _⟩ := attr_ok_stacks h; simp [endN, beginN, e1]
  | attr_esc n v => obtain ⟨e1, _⟩ := attr_esc_ok_stacks h; simp [endN, beginN, e1]
  | ns_decl m => obtain ⟨e1, _⟩ := ns_decl_ok_stacks h; simp [endN, beginN, e1]
  | text t => obtain ⟨e1, _⟩ := text_ok_len h; simp [endN, beginN, e1]
  | cdata t => obtain ⟨e1, _⟩ := cdata_ok_len h; simp [endN, beginN, e1]
  | comment c => obtain ⟨e1, _⟩ := comment_ok_len h; simp [endN, beginN, e1]
  | close => simp [isClose] at hcl
  | set_namespace v =>
      injection h with h
      subst h
      simp [endN, beginN]
  | set_compact_mode =>
      injection h with h
      subst h
      simp [endN, beginN, XmlWriter.set_compact_mode]
  | set_pretty_mode =>
      injection h with h
      subst h
      simp [endN, beginN, XmlWriter.set_pretty_mode]
  | set_very_pretty_mode =>
      injection h with h
      subst h
      simp [endN, beginN, XmlWriter.set_very_pretty_mode]

/-- Sequence-level stack-depth accounting for `close`-free call sequences. -/
theorem runSeq_ok_len {ops : List Op} {w u : XmlWriter} (hcf : closeFree ops = true)
    (h : runSeq w ops = .ok u) :
    u.stack.length + countEnds ops = w.stack.length + countBegins ops := by
  induction ops generalizing w with
  | nil =>
      unfold runSeq at h
      cases h
      simp [countEnds, countBegins]
  | cons op ops ih =>
      unfold runSeq at h
      obtain ⟨w1, h1, h2⟩ := bindOk h
      simp only [closeFree, List.all_cons, Bool.and_eq_true, Bool.not_eq_true'] at hcf
      have e1 := runOp_ok_len hcf.1 h1
      have e2 := ih (by simp [closeFree, hcf.2]) h2
      simp only [countEnds, countBegins, List.map_cons, List.sum_cons] at *
      omega

/-! Newline-freeness machinery for Compact-mode runs. -/

theorem noNL_append (a b : String) : noNL (a ++ b) = (noNL a && noNL b) := by
  simp [noNL, String.data_append, List.all_append]

theorem escapeChar_noNL {c : Char} (ident : Bool) (hc : (!(c == '\n')) = true) :
    noNL (escapeChar ident c) = true := by
  unfold escapeChar
  split
  · decide
  split
  · decide
  split
  · decide
  split
  · decide
  split
  · decide
  split
  · decide
  · simpa [noNL, String.singleton] using hc

theorem compactInv_flags {w : XmlWriter} (h : compactInv w = true) :
    w.pretty = false ∧ w.very_pretty = false := by
  simp only [compactInv, Bool.and_eq_true, Bool.not_eq_true'] at h
  exact ⟨h.1.1.1.1.2, h.1.1.1.2⟩

theorem markTop_cinv (w : XmlWriter) : compactInv (markTop w) = compactInv w := by
  unfold markTop
  split
  · rfl
  · rename_i n b rest heq
    simp [compactInv, heq]

theorem write_cinv {w : XmlWriter} {s : String} (h : compactInv w = true)
    (hs : noNL s = true) : ResSat (fun u => compactInv u = true) (w.write s) := by
  unfold XmlWriter.write
  split
  · show compactInv _ = true
    simp only [compactInv, Bool.and_eq_true] at h ⊢
    simp only [noNL_append, Bool.and_eq_true]
    tauto
  · exact h
  · show compactInv _ = true
    simp only [compactInv, Bool.and_eq_true] at h ⊢
    simp only [noNL_append, Bool.and_eq_true]
    tauto

theorem indent_cinv {w : XmlWriter} (h : compactInv w = true) : w.indent = .ok w := by
  obtain ⟨hp, hvp⟩ := compactInv_flags h
  simp [XmlWriter.indent, hp, hvp]

theorem indent_cinvSat {w : XmlWriter} (h : compactInv w = true) :
    ResSat (fun u => compactInv u = true) w.indent := by
  rw [indent_cinv h]
  exact h

theorem close_elem_cinv {w : XmlWriter} (h : compactInv w = true) :
    ResSat (fun u => compactInv u = true) w.close_elem := by
  unfold XmlWriter.close_elem
  split
  · dsimp only
    split
    · exact resSat_bind (write_cinv h (by decide)) fun u hu =>
        show compactInv { u with opened := false } = true from hu
    · exact resSat_bind (write_cinv h (by decide)) fun u hu =>
        show compactInv { u with opened := false } = true from hu
  · exact h

theorem escapeGo_cinv {ident : Bool} {cs : List Char} {w : XmlWriter}
    (h : compactInv w = true) (hs : (cs.all fun c => !(c == '\n')) = true) :
    ResSat (fun u => compactInv u = true) (escapeGo ident w cs) := by
  induction cs generalizing w with
  | nil => exact h
  | cons c cs ih =>
      simp only [List.all_cons, Bool.and_eq_true] at hs
      exact resSat_bind (write_cinv h (escapeChar_noNL ident hs.1)) fun u hu => ih hu hs.2

theorem escape_cinv {w : XmlWriter} {t : String} {ident : Bool}
    (h : compactInv w = true) (ht : noNL t = true) :
    ResSat (fun u => compactInv u = true) (w.escape t ident) :=
  escapeGo_cinv h ht

theorem nsPre_cinv {w : XmlWriter} {nsv : Option String} (h : compactInv w = true)
    (ho : optNoNL nsv = true) : ResSat (fun u => compactInv u = true) (w.nsPre nsv) := by
  unfold XmlWriter.nsPre
  split
  · rename_i p
    exact resSat_bind (write_cinv h (by simpa [optNoNL] using ho)) fun u hu =>
      write_cinv hu (by decide)
  · exact h

theorem compactInv_ns {w : XmlWriter} (h : compactInv w = true) : optNoNL w.ns = true := by
  simp only [compactInv, Bool.and_eq_true] at h
  exact h.2

theorem push_cinv {u : XmlWriter} {name : String} (hu : compactInv u = true)
    (hn : noNL name = true) :
    compactInv { u with stack := (name, false) :: u.stack,
                        ns_stack := u.ns :: u.ns_stack } = true := by
  simp only [compactInv, Bool.and_eq_true, List.all_cons] at hu ⊢
  simp only [optNoNL] at hu ⊢
  tauto

theorem begin_elem_cinv {w : XmlWriter} {name : String} (h : compactInv w = true)
    (hn : noNL name = true) :
    ResSat (fun u => compactInv u = true) (w.begin_elem name) := by
  unfold XmlWriter.begin_elem
  dsimp only
  refine resSat_bind (close_elem_cinv (show compactInv { w with children := true } = true from h))
    fun u hu => ?_
  have hm : compactInv (markTop u) = true := by rw [markTop_cinv]; exact hu
  refine resSat_bind (indent_cinvSat hm) fun u2 hu2 => ?_
  refine resSat_bind (write_cinv (push_cinv hu2 hn) (by decide)) fun u3 hu3 => ?_
  have hop : compactInv { u3 with opened := true, children := false } = true := hu3
  refine resSat_bind (nsPre_cinv hop (compactInv_ns hop)) fun u4 hu4 => ?_
  exact write_cinv hu4 hn

theorem end_elem_cinv {w : XmlWriter} (h : compactInv w = true) :
    ResSat (fun u => compactInv u = true) w.end_elem := by
  unfold XmlWriter.end_elem
  refine resSat_bind (close_elem_cinv h) fun u hu => ?_
  split
  · exact hu
  rename_i nsv nsrest heqns
  have hnsv : optNoNL nsv = true ∧ (nsrest.all optNoNL) = true := by
    simp only [compactInv, Bool.and_eq_true] at hu
    have := hu.1.2
    rw [heqns] at this
    simpa [List.all_cons, Bool.and_eq_true] using this
  dsimp only
  split
  · show compactInv _ = true
    simp only [compactInv, Bool.and_eq_true] at hu ⊢
    exact ⟨⟨⟨⟨⟨hu.1.1.1.1.1, hu.1.1.1.1.2⟩, hu.1.1.1.2⟩, hu.1.1.2⟩, hnsv.2⟩, hu.2⟩
  rename_i nm ch srest heqs
  have hnm : noNL nm = true ∧ (srest.all fun p => noNL p.1) = true := by
    simp only [compactInv, Bool.and_eq_true] at hu
    have := hu.1.1.2
    rw [heqs] at this
    simpa [List.all_cons, Bool.and_eq_true] using this
  have hrec : compactInv { u with ns_stack := nsrest, stack := srest } = true := by
    simp only [compactInv, Bool.and_eq_true] at hu ⊢
    exact ⟨⟨⟨⟨⟨hu.1.1.1.1.1, hu.1.1.1.1.2⟩, hu.1.1.1.2⟩, hnm.2⟩, hnsv.2⟩, hu.2⟩
  split
  · exact hrec
  split
  · refine resSat_bind (indent_cinvSat hrec) fun u2 hu2 => ?_
    refine resSat_bind (write_cinv hu2 (by decide)) fun u3 hu3 => ?_
    refine resSat_bind (nsPre_cinv hu3 hnsv.1) fun u4 hu4 => ?_
    exact resSat_bind (write_cinv hu4 hnm.1) fun u5 hu5 => write_cinv hu5 (by decide)
  · refine resSat_bind (show ResSat (fun x => compactInv x = true)
      (Except.ok { u with ns_stack := nsrest, stack := srest }) from hrec) fun u2 hu2 => ?_
    refine resSat_bind (write_cinv hu2 (by decide)) fun u3 hu3 => ?_
    refine resSat_bind (nsPre_cinv hu3 hnsv.1) fun u4 hu4 => ?_
    exact resSat_bind (write_cinv hu4 hnm.1) fun u5 hu5 => write_cinv hu5 (by decide)

theorem elem_cinv {w : XmlWriter} {name : String} (h : compactInv w = true)
    (hn : noNL name = true) : ResSat (fun u => compactInv u = true) (w.elem name) := by
  unfold XmlWriter.elem
  refine resSat_bind (close_elem_cinv h) fun u hu => ?_
  refine resSat_bind (indent_cinvSat hu) fun u2 hu2 => ?_
  refine resSat_bind (write_cinv hu2 (by decide)) fun u3 hu3 => ?_
  refine resSat_bind (nsPre_cinv hu3 (compactInv_ns hu3)) fun u4 hu4 => ?_
  exact resSat_bind (write_cinv hu4 hn) fun u5 hu5 => write_cinv hu5 (by decide)

theorem elem_text_cinv {w : XmlWriter} {name t : String} (h : compactInv w = true)
    (hn : noNL name = true) (ht : noNL t = true) :
    ResSat (fun u => compactInv u = true) (w.elem_text name t) := by
  unfold XmlWriter.elem_text
  refine resSat_bind (close_elem_cinv h) fun u hu => ?_
  refine resSat_bind (indent_cinvSat hu) fun u2 hu2 => ?_
  refine resSat_bind (write_cinv hu2 (by decide)) fun u3 hu3 => ?_
  refine resSat_bind (nsPre_cinv hu3 (compactInv_ns hu3)) fun u4 hu4 => ?_
  refine resSat_bind (write_cinv hu4 hn) fun u5 hu5 => ?_
  refine resSat_bind (write_cinv hu5 (by decide)) fun u6 hu6 => ?_
  refine resSat_bind (escape_cinv hu6 ht) fun u7 hu7 => ?_
  refine resSat_bind (write_cinv hu7 (by decide)) fun u8 hu8 => ?_
  exact resSat_bind (write_cinv hu8 hn) fun u9 hu9 => write_cinv hu9 (by decide)

theorem empty_elem_cinv {w : XmlWriter} {name : String} (h : compactInv w = true)
    (hn : noNL name = true) : ResSat (fun u => compactInv u = true) (w.empty_elem name) := by
  unfold XmlWriter.empty_elem
  dsimp only
  refine resSat_bind (close_elem_cinv (show compactInv { w with children := true } = true from h))
    fun u hu => ?_
  have hm : compactInv { markTop u with children := false } = true := by
    have : compactInv (markTop u) = true := by rw [markTop_cinv]; exact hu
    exact this
  refine resSat_bind (indent_cinvSat hm) fun u2 hu2 => ?_
  refine resSat_bind (write_cinv hu2 (by decide)) fun u3 hu3 => ?_
  refine resSat_bind (nsPre_cinv hu3 (compactInv_ns hu3)) fun u4 hu4 => ?_
  exact resSat_bind (write_cinv hu4 hn) fun u5 hu5 => write_cinv hu5 (by decide)

theorem attr_cinv {w : XmlWriter} {n v : String} (h : compactInv w = true)
    (hn : noNL n = true) (hv : noNL v = true) :
    ResSat (fun u => compactInv u = true) (w.attr n v) := by
  unfold XmlWriter.attr
  split
  · exact h
  refine resSat_bind (write_cinv h (by decide)) fun u hu => ?_
  refine resSat_bind (write_cinv hu hn) fun u2 hu2 => ?_
  refine resSat_bind (write_cinv hu2 (by decide)) fun u3 hu3 => ?_
  exact resSat_bind (write_cinv hu3 hv) fun u4 hu4 => write_cinv hu4 (by decide)

theorem attr_esc_cinv {w : XmlWriter} {n v : String} (h : compactInv w = true)
    (hn : noNL n = true) (hv : noNL v = true) :
    ResSat (fun u => compactInv u = true) (w.attr_esc n v) := by
  unfold XmlWriter.attr_esc
  split
  · exact h
  refine resSat_bind (write_cinv h (by decide)) fun u hu => ?_
  refine resSat_bind (escape_cinv hu hn) fun u2 hu2 => ?_
  refine resSat_bind (write_cinv hu2 (by decide)) fun u3 hu3 => ?_
  exact resSat_bind (escape_cinv hu3 hv) fun u4 hu4 => write_cinv hu4 (by decide)

theorem nsDeclGo_cinv {m : List (Option String × String)} {w : XmlWriter}
    (h : compactInv w = true)
    (hm : (m.all fun p => optNoNL p.1 && noNL p.2) = true) :
    ResSat (fun u => compactInv u = true) (nsDeclGo w m) := by
  induction m generalizing w with
  | nil => exact h
  | cons item rest ih =>
      simp only [List.all_cons, Bool.and_eq_true] at hm
      unfold nsDeclGo
      dsimp only
      refine resSat_bind (attr_cinv h ?_ hm.1.2) fun u hu => ih hu hm.2
      cases hi : item.1 with
      | none => decide
      | some pre =>
          show noNL ("xmlns:" ++ pre) = true
          have hp : noNL pre = true := by
            have := hm.1.1
            rw [hi] at this
            simpa [optNoNL] using this
          rw [noNL_append, hp]
          decide

theorem ns_decl_cinv {w : XmlWriter} {m : List (Option String × String)}
    (h : compactInv w = true)
    (hm : (m.all fun p => optNoNL p.1 && noNL p.2) = true) :
    ResSat (fun u => compactInv u = true) (w.ns_decl m) := by
  unfold XmlWriter.ns_decl
  split
  · exact h
  · exact nsDeclGo_cinv h hm

theorem text_cinv {w : XmlWriter} {t : String} (h : compactInv w = true)
    (ht : noNL t = true) : ResSat (fun u => compactInv u = true) (w.text t) := by
  unfold XmlWriter.text
  dsimp only
  refine resSat_bind (close_elem_cinv (show compactInv { w with children := true } = true from h))
    fun u hu => ?_
  have hm : compactInv { markTop u with children := false } = true := by
    have : compactInv (markTop u) = true := by rw [markTop_cinv]; exact hu
    exact this
  split
  · exact resSat_bind (indent_cinvSat hm) fun u2 hu2 => escape_cinv hu2 ht
  · exact escape_cinv hm ht

theorem cdata_cinv {w : XmlWriter} {t : String} (h : compactInv w = true)
    (ht : noNL t = true) : ResSat (fun u => compactInv u = true) (w.cdata t) := by
  unfold XmlWriter.cdata
  dsimp only
  refine resSat_bind (close_elem_cinv (show compactInv { w with children := true } = true from h))
    fun u hu => ?_
  have hm : compactInv (markTop u) = true := by rw [markTop_cinv]; exact hu
  split
  · refine resSat_bind (indent_cinvSat hm) fun u2 hu2 => ?_
    have hc : compactInv { u2 with children := false } = true := hu2
    refine resSat_bind (write_cinv hc (by decide)) fun u3 hu3 => ?_
    exact resSat_bind (write_cinv hu3 ht) fun u4 hu4 => write_cinv hu4 (by decide)
  · refine resSat_bind (show ResSat (fun x => compactInv x = true) (Except.ok (markTop u)) from hm)
      fun u2 hu2 => ?_
    have hc : compactInv { u2 with children := false } = true := hu2
    refine resSat_bind (write_cinv hc (by decide)) fun u3 hu3 => ?_
    exact resSat_bind (write_cinv hu3 ht) fun u4 hu4 => write_cinv hu4 (by decide)

theorem comment_cinv {w : XmlWriter} {c : String} (h : compactInv w = true)
    (hc : noNL c = true) : ResSat (fun u => compactInv u = true) (w.comment c) := by
  unfold XmlWriter.comment
  dsimp only
  refine resSat_bind (close_elem_cinv (show compactInv { w with children := true } = true from h))
    fun u hu => ?_
  have hm : compactInv (markTop u) = true := by rw [markTop_cinv]; exact hu
  refine resSat_bind (indent_cinvSat hm) fun u2 hu2 => ?_
  have hc2 : compactInv { u2 with children := false } = true := hu2
  refine resSat_bind (write_cinv hc2 (by decide)) fun u3 hu3 => ?_
  exact resSat_bind (escape_cinv hu3 hc) fun u4 hu4 => write_cinv hu4 (by decide)

theorem closeGo_cinv {n : Nat} {w : XmlWriter} (h : compactInv w = true) :
    ResSat (fun u => compactInv u = true) (closeGo w n) := by
  induction n generalizing w with
  | zero => exact h
  | succ m ih => exact resSat_bind (end_elem_cinv h) fun u hu => ih hu

theorem close_cinv {w : XmlWriter} (h : compactInv w = true) :
    ResSat (fun u => compactInv u = true) w.close :=
  closeGo_cinv h

/-- One Compact-mode-safe API call preserves the Compact-mode invariant,
whatever the outcome. -/
theorem runOp_cinv {w : XmlWriter} {op : Op} (h : compactInv w = true)
    (hop : noNLOp op = true) :
    ResSat (fun u => compactInv u = true) (runOp w op) := by
  cases op with
  | dtd e => simp [noNLOp] at hop
  | set_pretty_mode => simp [noNLOp] at hop
  | set_very_pretty_mode => simp [noNLOp] at hop
  | begin_elem n =>
      simp only [noNLOp] at hop
      exact begin_elem_cinv h hop
  | end_elem => exact end_elem_cinv h
  | elem n =>
      simp only [noNLOp] at hop
      exact elem_cinv h hop
  | elem_text n t =>
      simp only [noNLOp, Bool.and_eq_true] at hop
      exact elem_text_cinv h hop.1 hop.2
  | empty_elem n =>
      simp only [noNLOp] at hop
      exact empty_elem_cinv h hop
  | attr n v =>
      simp only [noNLOp, Bool.and_eq_true] at hop
      exact attr_cinv h hop.1 hop.2
  | attr_esc n v =>
      simp only [noNLOp, Bool.and_eq_true] at hop
      exact attr_esc_cinv h hop.1 hop.2
  | ns_decl m =>
      simp only [noNLOp] at hop
      exact ns_decl_cinv h hop
  | text t =>
      simp only [noNLOp] at hop
      exact text_cinv h hop
  | cdata t =>
      simp only [noNLOp] at hop
      exact cdata_cinv h hop
  | comment c =>
      simp only [noNLOp] at hop
      exact comment_cinv h hop
  | close => exact close_cinv h
  | set_namespace v =>
      show compactInv { w with ns := v } = true
      simp only [noNLOp] at hop
      simp only [compactInv, Bool.and_eq_true] at h ⊢
      exact ⟨h.1, hop⟩
  | set_compact_mode =>
      show compactInv w.set_compact_mode = true
      simp only [XmlWriter.set_compact_mode, compactInv, Bool.and_eq_true, Bool.not_false] at h ⊢
      tauto

/-- A Compact-mode-safe call sequence keeps the Compact-mode invariant; in
particular the accepted bytes stay newline-free. -/
theorem runSeq_cinv {ops : List Op} {w : XmlWriter} (h : compactInv w = true)
    (hops : (ops.all noNLOp) = true) :
    ResSat (fun u => compactInv u = true) (runSeq w ops) := by
  induction ops generalizing w with
  | nil => exact h
  | cons op ops ih =>
      simp only [List.all_cons, Bool.and_eq_true] at hops
      exact resSat_bind (runOp_cinv h hops.1) fun u hu => ih hu hops.2

/-- From fixed mode flags to the mode invariant. -/
theorem modeP_imp_modeInv {w : XmlWriter} (h : modeInv w = true) :
    ∀ u, ModeP w.pretty w.very_pretty u → modeInv u = true := fun u hu => by
  simp only [modeInv] at h ⊢
  rw [hu.1, hu.2]
  exact h

/-- Every API call sequence preserves `very_pretty → pretty`, whatever the
outcome: the non-setter calls never touch the two flags, and each setter
re-establishes the invariant. -/
theorem runSeq_modeInv {ops : List Op} {w : XmlWriter} (h : modeInv w = true) :
    ResSat (fun u => modeInv u = true) (runSeq w ops) := by
  induction ops generalizing w with
  | nil => exact h
  | cons op ops ih =>
      refine resSat_bind ?_ fun u hu => ih hu
      cases op with
      | dtd e => exact resSat_imp (modeP_imp_modeInv h) (dtd_modeP _ ⟨rfl, rfl⟩)
      | begin_elem n => exact resSat_imp (modeP_imp_modeInv h) (begin_elem_modeP _ ⟨rfl, rfl⟩)
      | end_elem => exact resSat_imp (modeP_imp_modeInv h) (end_elem_modeP ⟨rfl, rfl⟩)
      | elem n => exact resSat_imp (modeP_imp_modeInv h) (elem_modeP _ ⟨rfl, rfl⟩)
      | elem_text n t => exact resSat_imp (modeP_imp_modeInv h) (elem_text_modeP _ _ ⟨rfl, rfl⟩)
      | empty_elem n => exact resSat_imp (modeP_imp_modeInv h) (empty_elem_modeP _ ⟨rfl, rfl⟩)
      | attr n v => exact resSat_imp (modeP_imp_modeInv h) (attr_modeP _ _ ⟨rfl, rfl⟩)
      | attr_esc n v => exact resSat_imp (modeP_imp_modeInv h) (attr_esc_modeP _ _ ⟨rfl, rfl⟩)
      | ns_decl m => exact resSat_imp (modeP_imp_modeInv h) (ns_decl_modeP _ ⟨rfl, rfl⟩)
      | text t => exact resSat_imp (modeP_imp_modeInv h) (text_modeP _ ⟨rfl, rfl⟩)
      | cdata t => exact resSat_imp (modeP_imp_modeInv h) (cdata_modeP _ ⟨rfl, rfl⟩)
      | comment c => exact resSat_imp (modeP_imp_modeInv h) (comment_modeP _ ⟨rfl, rfl⟩)
      | close => exact resSat_imp (modeP_imp_modeInv h) (close_modeP ⟨rfl, rfl⟩)
      | set_namespace v =>
          show modeInv { w with ns := v } = true
          simpa [modeInv] using h
      | set_compact_mode =>
          show modeInv w.set_compact_mode = true
          simp [XmlWriter.set_compact_mode, modeInv]
      | set_pretty_mode =>
          show modeInv w.set_pretty_mode = true
          simp [XmlWriter.set_pretty_mode, modeInv]
      | set_very_pretty_mode =>
          show modeInv w.set_very_pretty_mode = true
          simp [XmlWriter.set_very_pretty_mode, modeInv]

/-! The claims. -/

/-- C1 counterexample: in FullyPretty mode a child appended with `elem`
under an open element does not prevent the parent from self-closing — the
run `begin_elem "a"; elem "b"; end_elem` renders `<a/>` (self-closed, no
separate closing tag) even though a child `<b/>` was appended under it,
contradicting the claim that an element with any appended child is closed
with `>` and gets a separate indented closing tag. -/
theorem c1_counterexample_elem_child :
    (runSeq (XmlWriter.very_pretty_mode none 0)
        [.begin_elem "a", .elem "b", .end_elem]).map (fun w => w.out)
      = .ok "<a/>\n  <b/>" := by rfl

/-- C1 (amended): in FullyPretty mode an element with no appended child
renders as the single self-closed tag `<name/>` and `end_elem` writes
nothing further, and an element with a child appended through one of the
parent-marking operations (`text`, `comment`, `cdata`, `empty_elem`, or a
nested `begin_elem`/`end_elem` pair — but not `elem`/`elem_text`, which do
not mark the parent) is terminated with `>` and closed by a separate
indented closing tag.  The last two conjuncts state the two `end_elem`
behaviours at an arbitrary writer state: a popped entry whose has-children
flag is still false was already self-closed and nothing further is written;
a popped entry with the flag set gets an indented `</ns:name>` closing
tag. -/
theorem c1_fully_pretty_self_closing :
    (∀ name : String,
      (runSeq (XmlWriter.very_pretty_mode none 0)
          [.begin_elem name, .end_elem]).map (fun w => w.out)
        = .ok ("<" ++ (name ++ "/>"))) ∧
    (∀ (name : String) (c : ChildOp),
      (runSeq (XmlWriter.very_pretty_mode none 0)
          ([.begin_elem name] ++ c.toOps ++ [.end_elem])).map (fun w => w.out)
        = .ok ("<" ++ (name ++ (">" ++ ("\n" ++ ("  " ++ (c.core ++ ("\n" ++ ("</" ++ (name ++ ">")))))))))) ∧
    (∀ (w : XmlWriter) (name : String) (rest : List (String × Bool))
        (nso : Option String) (nsr : List (Option String)),
      w.very_pretty = true → w.opened = true → w.children = false →
      w.stack = (name, false) :: rest → w.ns_stack = nso :: nsr → w.failAfter = none →
      w.end_elem = .ok { w with out := w.out ++ "/>", opened := false,
                                stack := rest, ns_stack := nsr }) ∧
    (∀ (w : XmlWriter) (name : String) (rest : List (String × Bool))
        (nso : Option String) (nsr : List (Option String)),
      w.very_pretty = true → w.opened = false → w.newline = true →
      w.stack = (name, true) :: rest → w.ns_stack = nso :: nsr → w.failAfter = none →
      w.end_elem = .ok { w with
        out := w.out ++ ("\n" ++ (indentStr rest.length ++ ("</" ++ (nsStr nso ++ (name ++ ">"))))),
        stack := rest, ns_stack := nsr }) := by
  refine ⟨fun name => ?_, fun name c => ?_,
    fun w name rest nso nsr hvp hop hch hs hns hfa => ?_,
    fun w name rest nso nsr hvp hop hnl hs hns hfa => ?_⟩
  · simp [-String.reduceAppend, runSeq, runOp, XmlWriter.very_pretty_mode, XmlWriter.begin_elem,
      XmlWriter.end_elem, XmlWriter.close_elem, XmlWriter.indent, XmlWriter.nsPre, XmlWriter.write,
      markTop, writeIndent, Bind.bind, Except.bind, Except.map, String.empty_append,
      String.append_assoc]
  · cases c <;>
      simp [-String.reduceAppend, runSeq, runOp, ChildOp.toOps, ChildOp.core,
        XmlWriter.very_pretty_mode, XmlWriter.begin_elem, XmlWriter.end_elem, XmlWriter.close_elem,
        XmlWriter.indent, XmlWriter.nsPre, XmlWriter.write, markTop, writeIndent, XmlWriter.text,
        XmlWriter.cdata, XmlWriter.comment, XmlWriter.empty_elem, XmlWriter.escape, escapeGo_none,
        escapeStr, indentStr, Bind.bind, Except.bind, Except.map, String.empty_append,
        String.append_assoc]
  · simp [XmlWriter.end_elem, XmlWriter.close_elem, hvp, hop, hch, hs, hns, XmlWriter.write, hfa,
      Bind.bind, Except.bind]
  · cases nso <;>
      simp [-String.reduceAppend, XmlWriter.end_elem, XmlWriter.close_elem, XmlWriter.indent, hvp,
        hop, hnl, hs, hns, XmlWriter.write, XmlWriter.nsPre, nsStr, hfa, writeIndent_none,
        Bind.bind, Except.bind, String.append_assoc, String.empty_append]

/-- C1 witness: the two hypothesis-bearing conjuncts of
`c1_fully_pretty_self_closing` applied at concrete writer states. -/
theorem c1_fully_pretty_self_closing_witness :
    XmlWriter.end_elem
        { stack := [("a", false)], ns_stack := [none], out := "<a", opened := true,
          pretty := true, ns := none, very_pretty := true, children := false, newline := true,
          failAfter := none, errv := 0 }
      = .ok { stack := [], ns_stack := [], out := "<a" ++ "/>", opened := false,
              pretty := true, ns := none, very_pretty := true, children := false, newline := true,
              failAfter := none, errv := 0 } ∧
    XmlWriter.end_elem
        { stack := [("b", true)], ns_stack := [some "s"], out := "<s:b>x", opened := false,
          pretty := true, ns := none, very_pretty := true, children := true, newline := true,
          failAfter := none, errv := 0 }
      = .ok { stack := [], ns_stack := [],
              out := "<s:b>x" ++ ("\n" ++ (indentStr 0 ++ ("</" ++ (nsStr (some "s") ++ ("b" ++ ">"))))),
              opened := false, pretty := true, ns := none, very_pretty := true, children := true,
              newline := true, failAfter := none, errv := 0 } :=
  ⟨c1_fully_pretty_self_closing.2.2.1 _ "a" [] none [] rfl rfl rfl rfl rfl rfl,
   c1_fully_pretty_self_closing.2.2.2 _ "b" [] (some "s") [] rfl rfl rfl rfl rfl rfl⟩

/-- C2: contrary to the claim, `elem` and `elem_text` do not mark the
previous top-of-stack element as having children: after
`begin_elem "a"; elem "b"` in FullyPretty mode the stack entry for `a`
still carries `false`, so `a`'s pending tag was terminated `/>` rather
than `>` and the later `end_elem` emits no closing tag, producing the
malformed output `<a/>\n  <b/>` (and `<a/>\n  <b>t</b>` for
`elem_text`). -/
theorem c2_elem_leaves_parent_unmarked :
    runSeq (XmlWriter.very_pretty_mode none 0) [.begin_elem "a", .elem "b"]
      = .ok { stack := [("a", false)], ns_stack := [none], out := "<a/>\n  <b/>",
              opened := false, pretty := true, ns := none, very_pretty := true,
              children := false, newline := true, failAfter := none, errv := 0 } ∧
    runSeq (XmlWriter.very_pretty_mode none 0) [.begin_elem "a", .elem_text "b" "t", .end_elem]
      = .ok { stack := [], ns_stack := [], out := "<a/>\n  <b>t</b>",
              opened := false, pretty := true, ns := none, very_pretty := true,
              children := false, newline := true, failAfter := none, errv := 0 } :=
  ⟨rfl, rfl⟩

/-- C3 counterexample: in Pretty mode a second root-level comment is NOT
preceded by a newline — `indent` writes nothing in Pretty mode whenever
the stack is empty, so two root comments are emitted back to back. -/
theorem c3_counterexample_second_comment_no_newline :
    (runSeq (XmlWriter.pretty_mode none 0) [.comment "hi", .comment "hi"]).map (fun w => w.out)
      = .ok "<!-- hi --><!-- hi -->" := by rfl

/-- C3 (amended): in Pretty mode with an empty stack the first root-level
comment is written as `<!-- c -->` with no leading newline, and a second
root-level comment immediately afterwards is also written with no leading
newline (the Pretty-mode indent suppresses the newline whenever the stack
is empty; only FullyPretty mode puts a newline before the second root
node). -/
theorem c3_pretty_root_comments_no_newline (a b : String) :
    (runSeq (XmlWriter.pretty_mode none 0) [.comment a, .comment b]).map (fun w => w.out)
      = .ok ("<!-- " ++ (escapeStr false a ++ (" -->" ++ ("<!-- " ++ (escapeStr false b ++ " -->"))))) := by
  simp [-String.reduceAppend, runSeq, runOp, XmlWriter.pretty_mode, XmlWriter.comment,
    XmlWriter.close_elem, XmlWriter.indent, XmlWriter.write, markTop, writeIndent,
    XmlWriter.escape, escapeGo_none, escapeStr, Bind.bind, Except.bind, Except.map,
    String.empty_append, String.append_assoc]

/-- C4: the closing tag written by `end_elem` uses the namespace that was
pushed on the Namespace Stack when the element was opened, not the
writer's namespace setting at close time, in every formatting mode.
First conjunct: a Compact-mode run that sets namespace `ns1`, opens an
element, switches the namespace to an arbitrary `ns2` (including clearing
it) and closes, yields `<ns1:name></ns1:name>`.  Second conjunct: the same
in FullyPretty mode (with a text child so a closing tag is emitted): the
indented closing tag on its own line still carries `ns1`.  Third and
fourth conjuncts: at any writer state, in both the non-FullyPretty branch
and the FullyPretty has-children branch of `end_elem`, the emitted closing
tag is built from the popped Namespace Stack entry; neither conclusion
depends on the writer's current `namespace` field.  (In the remaining
FullyPretty branch — no children — the element was self-closed and
`end_elem` emits no closing tag at all, so the claim is vacuous there;
that branch is settled under C1.) -/
theorem c4_close_tag_uses_open_time_namespace :
    (∀ (ns1 : String) (ns2 : Option String) (name : String),
      (runSeq (XmlWriter.compact_mode none 0)
          [.set_namespace (some ns1), .begin_elem name, .set_namespace ns2,
           .end_elem]).map (fun w => w.out)
        = .ok ("<" ++ (ns1 ++ (":" ++ (name ++ (">" ++ ("</" ++ (ns1 ++ (":" ++ (name ++ ">")))))))))) ∧
    (∀ (ns1 : String) (ns2 : Option String) (name t : String),
      (runSeq (XmlWriter.very_pretty_mode none 0)
          [.set_namespace (some ns1), .begin_elem name, .set_namespace ns2,
           .text t, .end_elem]).map (fun w => w.out)
        = .ok ("<" ++ (ns1 ++ (":" ++ (name ++ (">" ++ ("\n" ++ ("  " ++ (escapeStr false t ++
            ("\n" ++ ("</" ++ (ns1 ++ (":" ++ (name ++ ">")))))))))))))) ∧
    (∀ (w : XmlWriter) (name : String) (ch : Bool) (rest : List (String × Bool))
        (nso : Option String) (nsr : List (Option String)),
      w.very_pretty = false → w.opened = false → w.failAfter = none →
      w.stack = (name, ch) :: rest → w.ns_stack = nso :: nsr →
      w.end_elem = .ok { w with out := w.out ++ ("</" ++ (nsStr nso ++ (name ++ ">"))),
                                stack := rest, ns_stack := nsr }) ∧
    (∀ (w : XmlWriter) (name : String) (rest : List (String × Bool))
        (nso : Option String) (nsr : List (Option String)),
      w.very_pretty = true → w.opened = false → w.newline = true → w.failAfter = none →
      w.stack = (name, true) :: rest → w.ns_stack = nso :: nsr →
      w.end_elem = .ok { w with
        out := w.out ++ ("\n" ++ (indentStr rest.length ++ ("</" ++ (nsStr nso ++ (name ++ ">"))))),
        stack := rest, ns_stack := nsr }) := by
  refine ⟨fun ns1 ns2 name => ?_, fun ns1 ns2 name t => ?_,
    fun w name ch rest nso nsr hvp hop hfa hs hns => ?_,
    fun w name rest nso nsr hvp hop hnl hfa hs hns => ?_⟩
  · simp [-String.reduceAppend, runSeq, runOp, XmlWriter.compact_mode, XmlWriter.begin_elem,
      XmlWriter.end_elem, XmlWriter.close_elem, XmlWriter.indent, XmlWriter.nsPre, XmlWriter.write,
      markTop, writeIndent, Bind.bind, Except.bind, Except.map, String.empty_append,
      String.append_assoc]
  · simp [-String.reduceAppend, runSeq, runOp, XmlWriter.very_pretty_mode, XmlWriter.begin_elem,
      XmlWriter.end_elem, XmlWriter.close_elem, XmlWriter.indent, XmlWriter.nsPre, XmlWriter.write,
      markTop, writeIndent, XmlWriter.text, XmlWriter.escape, escapeGo_none, escapeStr,
      Bind.bind, Except.bind, Except.map, String.empty_append, String.append_assoc]
  · cases nso <;>
      simp [-String.reduceAppend, XmlWriter.end_elem, XmlWriter.close_elem, hvp, hop, hfa, hs, hns,
        XmlWriter.write, XmlWriter.nsPre, nsStr, Bind.bind, Except.bind, String.append_assoc,
        String.empty_append]
  · cases nso <;>
      simp [-String.reduceAppend, XmlWriter.end_elem, XmlWriter.close_elem, XmlWriter.indent, hvp,
        hop, hnl, hs, hns, XmlWriter.write, XmlWriter.nsPre, nsStr, hfa, writeIndent_none,
        Bind.bind, Except.bind, String.append_assoc, String.empty_append]

/-- C4 witness: the two state-level conjuncts applied at writers whose
current namespace setting (`zzz`) differs from the stacked open-time
prefix `s`; in both modes the closing tag still uses `s`. -/
theorem c4_close_tag_uses_open_time_namespace_witness :
    XmlWriter.end_elem
        { stack := [("n", true)], ns_stack := [some "s"], out := "<s:n>", opened := false,
          pretty := false, ns := some "zzz", very_pretty := false, children := false,
          newline := false, failAfter := none, errv := 0 }
      = .ok { stack := [], ns_stack := [],
              out := "<s:n>" ++ ("</" ++ (nsStr (some "s") ++ ("n" ++ ">"))),
              opened := false, pretty := false, ns := some "zzz", very_pretty := false,
              children := false, newline := false, failAfter := none, errv := 0 } ∧
    XmlWriter.end_elem
        { stack := [("n", true)], ns_stack := [some "s"], out := "<s:n>y", opened := false,
          pretty := true, ns := some "zzz", very_pretty := true, children := true,
          newline := true, failAfter := none, errv := 0 }
      = .ok { stack := [], ns_stack := [],
              out := "<s:n>y" ++ ("\n" ++ (indentStr 0 ++ ("</" ++ (nsStr (some "s") ++ ("n" ++ ">"))))),
              opened := false, pretty := true, ns := some "zzz", very_pretty := true,
              children := true, newline := true, failAfter := none, errv := 0 } :=
  ⟨c4_close_tag_uses_open_time_namespace.2.2.1 _ "n" true [] (some "s") [] rfl rfl rfl rfl rfl,
   c4_close_tag_uses_open_time_namespace.2.2.2 _ "n" [] (some "s") [] rfl rfl rfl rfl rfl rfl⟩

/-- C5: protocol misuse panics (modelled as the distinguished `panicked`
outcome, never the `sinkErr` error value and with nothing written):
`attr`, `attr_esc` and `ns_decl` panic when no tag is open, and `end_elem`
panics when the Namespace Stack is empty or when it is non-empty but the
Open-Element Stack is empty (in the latter case the namespace frame was
already popped when the panic fires). -/
theorem c5_protocol_misuse_panics :
    (∀ (w : XmlWriter) (n v : String), w.opened = false →
      w.attr n v = .error (.panicked "Attempted to write attr to elem, when no elem was opened", w)) ∧
    (∀ (w : XmlWriter) (n v : String), w.opened = false →
      w.attr_esc n v = .error (.panicked "Attempted to write attr to elem, when no elem was opened", w)) ∧
    (∀ (w : XmlWriter) (m : List (Option String × String)), w.opened = false →
      w.ns_decl m = .error (.panicked "Attempted to write namespace decl to elem, when no elem was opened", w)) ∧
    (∀ w : XmlWriter, w.opened = false → w.ns_stack = [] →
      w.end_elem = .error (.panicked "Attempted to close namespaced element without corresponding open namespace", w)) ∧
    (∀ (w : XmlWriter) (nso : Option String) (nsr : List (Option String)),
      w.opened = false → w.ns_stack = nso :: nsr → w.stack = [] →
      w.end_elem = .error (.panicked "Attempted to close an elem, when none was open",
                           { w with ns_stack := nsr })) := by
  refine ⟨fun w n v hop => ?_, fun w n v hop => ?_, fun w m hop => ?_,
    fun w hop hns => ?_, fun w nso nsr hop hns hs => ?_⟩
  · simp [XmlWriter.attr, hop]
  · simp [XmlWriter.attr_esc, hop]
  · simp [XmlWriter.ns_decl, hop]
  · simp [XmlWriter.end_elem, XmlWriter.close_elem, hop, hns, Bind.bind, Except.bind]
  · simp [XmlWriter.end_elem, XmlWriter.close_elem, hop, hns, hs, Bind.bind, Except.bind]

/-- C5 witness: the panics observed on a freshly constructed compact
writer (no tag open, both stacks empty) and on an artificial state with a
namespace frame but no element frame. -/
theorem c5_protocol_misuse_panics_witness :
    XmlWriter.attr (XmlWriter.compact_mode none 0) "x" "1"
      = .error (.panicked "Attempted to write attr to elem, when no elem was opened",
                XmlWriter.compact_mode none 0) ∧
    XmlWriter.end_elem (XmlWriter.compact_mode none 0)
      = .error (.panicked "Attempted to close namespaced element without corresponding open namespace",
                XmlWriter.compact_mode none 0) ∧
    XmlWriter.end_elem
        { stack := [], ns_stack := [none], out := "", opened := false, pretty := false, ns := none,
          very_pretty := false, children := false, newline := false, failAfter := none, errv := 0 }
      = .error (.panicked "Attempted to close an elem, when none was open",
                { stack := [], ns_stack := [], out := "", opened := false, pretty := false,
                  ns := none, very_pretty := false, children := false, newline := false,
                  failAfter := none, errv := 0 }) :=
  ⟨c5_protocol_misuse_panics.1 _ "x" "1" rfl,
   c5_protocol_misuse_panics.2.2.2.1 _ rfl rfl,
   c5_protocol_misuse_panics.2.2.2.2 _ none [] rfl rfl rfl⟩

/-- C6: the escape routine substitutes `&quot;`, `&apos;`, `&amp;`,
`&lt;`, `&gt;` for the five special characters, doubles a backslash only
when escaping an identifier, and passes every other character through
unchanged; `escape` on the writer is exactly the per-character
substitution applied to the text and appended to the sink; the raw paths
(`attr`, `cdata`, `write`) perform no substitution at all. -/
theorem c6_escape_characterization :
    (∀ ident : Bool, escapeChar ident '"' = "&quot;" ∧ escapeChar ident '\'' = "&apos;" ∧
      escapeChar ident '&' = "&amp;" ∧ escapeChar ident '<' = "&lt;" ∧
      escapeChar ident '>' = "&gt;") ∧
    (escapeChar true '\\' = "\\\\" ∧ escapeChar false '\\' = String.singleton '\\') ∧
    (∀ (c : Char) (ident : Bool), c ≠ '"' → c ≠ '\'' → c ≠ '&' → c ≠ '<' → c ≠ '>' →
      c ≠ '\\' → escapeChar ident c = String.singleton c) ∧
    (∀ ident : Bool, escapeStrL ident [] = "" ∧
      ∀ (c : Char) (cs : List Char),
        escapeStrL ident (c :: cs) = escapeChar ident c ++ escapeStrL ident cs) ∧
    (∀ (w : XmlWriter) (t : String) (ident : Bool), w.failAfter = none →
      w.escape t ident = .ok { w with out := w.out ++ escapeStr ident t }) ∧
    (∀ (w : XmlWriter) (n v : String), w.opened = true → w.failAfter = none →
      w.attr n v = .ok { w with out := w.out ++ (" " ++ (n ++ ("=\"" ++ (v ++ "\"")))) }) ∧
    (∀ (w : XmlWriter) (t : String), w.opened = false → w.very_pretty = false →
      w.failAfter = none →
      (w.cdata t).map (fun u => u.out) = .ok (w.out ++ ("<![CDATA[" ++ (t ++ "]]>")))) ∧
    (∀ (w : XmlWriter) (s : String), w.failAfter = none →
      w.write s = .ok { w with out := w.out ++ s }) := by
  refine ⟨fun ident => ⟨rfl, rfl, rfl, rfl, rfl⟩, ⟨rfl, rfl⟩,
    fun c ident h1 h2 h3 h4 h5 h6 => ?_, fun ident => ⟨rfl, fun c cs => rfl⟩,
    fun w t ident h => escape_none t ident h, fun w n v hop hfa => ?_,
    fun w t hop hvp hfa => ?_, fun w s h => write_none s h⟩
  · simp [escapeChar, h1, h2, h3, h4, h5, h6]
  · simp [-String.reduceAppend, XmlWriter.attr, hop, XmlWriter.write, hfa, Bind.bind, Except.bind,
      String.append_assoc]
  · simp [-String.reduceAppend, XmlWriter.cdata, XmlWriter.close_elem, hop, hvp, XmlWriter.write,
      hfa, Bind.bind, Except.bind, Except.map, String.append_assoc]

/-- C6 witness: hypothesis-bearing conjuncts of `c6_escape_characterization`
at concrete inputs. -/
theorem c6_escape_characterization_witness :
    escapeChar false 'x' = String.singleton 'x' ∧
    XmlWriter.escape (XmlWriter.compact_mode none 0) "<&>" false
      = .ok { XmlWriter.compact_mode none 0 with out := "" ++ escapeStr false "<&>" } ∧
    XmlWriter.write (XmlWriter.compact_mode none 0) "hi"
      = .ok { XmlWriter.compact_mode none 0 with out := "" ++ "hi" } :=
  ⟨c6_escape_characterization.2.2.1 'x' false (by decide) (by decide) (by decide) (by decide)
      (by decide) (by decide),
   c6_escape_characterization.2.2.2.2.1 _ "<&>" false rfl,
   c6_escape_characterization.2.2.2.2.2.2.2 _ "hi" rfl⟩

/-- C7: after any successful `close`-free call sequence starting from an
empty stack in which `begin_elem` and `end_elem` counts match, the
Open-Element Stack is empty; `close` is by definition one `end_elem` per
element open at entry, a successful `close` always leaves the stack empty,
and `close` on an empty stack is a no-op returning the writer unchanged
with no writes. -/
theorem c7_balanced_sequences_empty_stack :
    (∀ (ops : List Op) (w u : XmlWriter), w.stack = [] → closeFree ops = true →
      countBegins ops = countEnds ops → runSeq w ops = .ok u → u.stack = []) ∧
    (∀ w : XmlWriter, w.close = closeGo w w.stack.length) ∧
    (∀ w u : XmlWriter, w.close = .ok u → u.stack = []) ∧
    (∀ w : XmlWriter, w.stack = [] → w.close = .ok w) := by
  refine ⟨fun ops w u hw hcf hbal h => ?_, fun w => rfl,
    fun w u h => close_ok_nil h, fun w h => ?_⟩
  · have h2 := runSeq_ok_len hcf h
    rw [hw] at h2
    simp only [List.length_nil] at h2
    have : u.stack.length = 0 := by omega
    exact List.length_eq_zero.mp this
  · show closeGo w w.stack.length = .ok w
    rw [h]
    rfl

/-- C7 witness: the balanced run `begin_elem "a"; end_elem` from a fresh
compact writer leaves the stack empty, and `close` on the fresh writer is
a no-op. -/
theorem c7_balanced_sequences_empty_stack_witness :
    ({ stack := [], ns_stack := [], out := "<a></a>", opened := false, pretty := false,
       ns := none, very_pretty := false, children := false, newline := false,
       failAfter := none, errv := 0 } : XmlWriter).stack = ([] : List (String × Bool)) ∧
    (XmlWriter.compact_mode none 0).close = .ok (XmlWriter.compact_mode none 0) :=
  ⟨c7_balanced_sequences_empty_stack.1 [.begin_elem "a", .end_elem]
      (XmlWriter.compact_mode none 0) _ rfl rfl rfl rfl,
   c7_balanced_sequences_empty_stack.2.2.2 _ rfl⟩

/-- C8 counterexample: `dtd` ends its declaration line with a literal
newline even in Compact mode, so a Compact-mode sequence can emit a
newline byte. -/
theorem c8_counterexample_dtd_newline :
    (runSeq (XmlWriter.compact_mode none 0) [.dtd "UTF-8"]).map (fun w => w.out)
      = .ok "<?xml version=\"1.0\" encoding=\"UTF-8\" ?>\n" ∧
    noNL "<?xml version=\"1.0\" encoding=\"UTF-8\" ?>\n" = false :=
  ⟨rfl, rfl⟩

/-- C8 (amended): in Compact mode the indent routine writes nothing, and
for every call sequence that avoids `dtd` (whose declaration line ends in
a literal newline) and the two pretty-mode setters, and whose string
arguments are newline-free, the accepted bytes remain newline-free
whatever the outcome (`compactInv` also carries the invariant that all
stacked names are newline-free). -/
theorem c8_compact_mode_no_newline :
    (∀ w : XmlWriter, w.pretty = false → w.very_pretty = false → w.indent = .ok w) ∧
    (∀ (w : XmlWriter) (ops : List Op), compactInv w = true → (ops.all noNLOp) = true →
      ResSat (fun u => compactInv u = true) (runSeq w ops)) := by
  refine ⟨fun w hp hvp => ?_, fun w ops h hops => runSeq_cinv h hops⟩
  simp [XmlWriter.indent, hp, hvp]

/-- C8 witness: the indent no-op and the invariant on a concrete balanced
run, both at a fresh compact writer. -/
theorem c8_compact_mode_no_newline_witness :
    (XmlWriter.compact_mode none 0).indent = .ok (XmlWriter.compact_mode none 0) ∧
    ResSat (fun u => compactInv u = true)
      (runSeq (XmlWriter.compact_mode none 0) [.begin_elem "a", .end_elem]) :=
  ⟨c8_compact_mode_no_newline.1 _ rfl rfl,
   c8_compact_mode_no_newline.2 _ [.begin_elem "a", .end_elem] rfl rfl⟩

/-- C9 counterexample: `begin_elem` pushes its frame on both stacks before
the first sink write, so when the sink fails immediately the error is
propagated but the stacks have already changed — they do not remain as
they were before the call (pre-call stacks are empty, the carried state
has one frame on each). -/
theorem c9_counterexample_begin_elem_pushes_before_failing :
    (XmlWriter.compact_mode (some 0) 7).stack = [] ∧
    (XmlWriter.compact_mode (some 0) 7).begin_elem "a"
      = .error (.sinkErr 7,
          { stack := [("a", false)], ns_stack := [none], out := "", opened := false,
            pretty := false, ns := none, very_pretty := false, children := true,
            newline := false, failAfter := some 0, errv := 7 }) :=
  ⟨rfl, rfl⟩

/-- C9 (amended): a failing sink write is propagated verbatim (the error
is exactly the sink's error, with no retry), and the writer performs no
repair of its stacks — they are left in whatever state the call had
reached: `begin_elem` has already pushed the new frame on both stacks when
the first write of the tag fails, and `end_elem` has already popped both
stacks when the write of the closing tag fails. -/
theorem c9_sink_error_propagation :
    (∀ (w : XmlWriter) (s : String), w.failAfter = some 0 →
      w.write s = .error (.sinkErr w.errv, w)) ∧
    (∀ (w : XmlWriter) (name : String), w.failAfter = some 0 → w.opened = false →
      w.pretty = false → w.very_pretty = false → w.stack = [] →
      w.begin_elem name = .error (.sinkErr w.errv,
        { w with children := true, stack := [(name, false)],
                 ns_stack := w.ns :: w.ns_stack })) ∧
    (∀ (w : XmlWriter) (name : String) (ch : Bool) (rest : List (String × Bool))
        (nso : Option String) (nsr : List (Option String)),
      w.failAfter = some 0 → w.opened = false → w.very_pretty = false →
      w.stack = (name, ch) :: rest → w.ns_stack = nso :: nsr →
      w.end_elem = .error (.sinkErr w.errv, { w with stack := rest, ns_stack := nsr })) := by
  refine ⟨fun w s h => ?_, fun w name hfa hop hp hvp hs => ?_,
    fun w name ch rest nso nsr hfa hop hvp hs hns => ?_⟩
  · simp [XmlWriter.write, h]
  · simp [XmlWriter.begin_elem, XmlWriter.close_elem, XmlWriter.indent, markTop, hfa, hop, hp,
      hvp, hs, XmlWriter.write, Bind.bind, Except.bind]
  · simp [XmlWriter.end_elem, XmlWriter.close_elem, hfa, hop, hvp, hs, hns, XmlWriter.write,
      Bind.bind, Except.bind]

/-- C9 witness: the amended conjuncts at a concrete immediately-failing
sink with error code 9. -/
theorem c9_sink_error_propagation_witness :
    XmlWriter.write (XmlWriter.compact_mode (some 0) 9) "x"
      = .error (.sinkErr 9, XmlWriter.compact_mode (some 0) 9) ∧
    XmlWriter.begin_elem (XmlWriter.compact_mode (some 0) 9) "b"
      = .error (.sinkErr 9,
          { XmlWriter.compact_mode (some 0) 9 with
            children := true, stack := [("b", false)], ns_stack := [none] }) :=
  ⟨c9_sink_error_propagation.1 _ "x" rfl,
   c9_sink_error_propagation.2.1 _ "b" rfl rfl rfl rfl rfl⟩

/-- C10: `very_pretty` implies `pretty` in every state reachable through
the public API: all three constructors establish the invariant
(regardless of the sink), and every call sequence — mode setters included
— preserves it, whether each call succeeds or stops with an error. -/
theorem c10_very_pretty_implies_pretty :
    (∀ (fa : Option Nat) (e : Nat),
      modeInv (XmlWriter.compact_mode fa e) = true ∧
      modeInv (XmlWriter.pretty_mode fa e) = true ∧
      modeInv (XmlWriter.very_pretty_mode fa e) = true) ∧
    (∀ (w : XmlWriter) (ops : List Op), modeInv w = true →
      ResSat (fun u => modeInv u = true) (runSeq w ops)) :=
  ⟨fun _ _ => ⟨rfl, rfl, rfl⟩, fun _ _ h => runSeq_modeInv h⟩

/-- C10 witness: the invariant holds along a run that exercises all three
setters from a FullyPretty writer. -/
theorem c10_very_pretty_implies_pretty_witness :
    ResSat (fun u => modeInv u = true)
      (runSeq (XmlWriter.very_pretty_mode none 0)
        [.set_pretty_mode, .set_compact_mode, .set_very_pretty_mode, .begin_elem "a"]) :=
  c10_very_pretty_implies_pretty.2 _
    [.set_pretty_mode, .set_compact_mode, .set_very_pretty_mode, .begin_elem "a"] rfl
